import Mathlib

/-!
Shallow embedding of the order-settlement core of the fruit-shop backend
(`backend/routes/orders.js`, `backend/routes/admin.js`, schema in
`backend/server.js`).  Tables are lists of rows in insertion order; SQL
reads become pure lookups, SQL writes become state-to-state functions.
Monetary amounts, credit, stock and quantities are integers (the schema
stores INTEGER / REAL, and the routes only add, subtract and compare).
-/

namespace FruitShop

/-- A row of the `products` table (the columns settlement touches). -/
structure Product where
  id : Nat
  name : String
  price : Int
  stock : Int
  deriving Repr, DecidableEq

/-- A row of the `users` table (the columns settlement touches);
`credit` is read through `IFNULL(credit, 0)`, so it is a plain integer. -/
structure UserRow where
  id : Nat
  status : String
  credit : Int
  isAdmin : Bool
  deriving Repr, DecidableEq

/-- A row of the `cart_items` table. -/
structure CartItem where
  userId : Nat
  productId : Nat
  quantity : Int
  deriving Repr, DecidableEq

/-- A row of the `orders` table. -/
structure Order where
  id : Nat
  userId : Nat
  orderNumber : String
  totalAmount : Int
  status : String
  shippingName : String
  shippingPhone : String
  shippingAddress : String
  notes : Option String
  cancelReason : Option String
  adminNote : Option String
  deriving Repr, DecidableEq

/-- A row of the `order_items` table. -/
structure OrderItem where
  orderId : Nat
  productId : Nat
  name : String
  unitPrice : Int
  quantity : Int
  deriving Repr, DecidableEq

/-- The database state: the five tables settlement reads or writes. -/
structure State where
  products : List Product
  users : List UserRow
  cartItems : List CartItem
  orders : List Order
  orderItems : List OrderItem
  deriving Repr, DecidableEq

/-- `SELECT ... FROM users WHERE id = ?` (first matching row). -/
def findUser (s : State) (uid : Nat) : Option UserRow :=
  s.users.find? (fun u => u.id == uid)

/-- `SELECT ... FROM products WHERE id = ?` (first matching row). -/
def findProduct (s : State) (pid : Nat) : Option Product :=
  s.products.find? (fun p => p.id == pid)

/-- `SELECT * FROM orders WHERE id = ?` (first matching row). -/
def findOrder (s : State) (oid : Nat) : Option Order :=
  s.orders.find? (fun o => o.id == oid)

/-- A row of the settlement cart query
`SELECT c.*, p.price, p.stock, p.name FROM cart_items c JOIN products p ...`. -/
structure CartRow where
  productId : Nat
  quantity : Int
  price : Int
  stock : Int
  pname : String
  deriving Repr, DecidableEq

/-- The joined cart query for one user: cart lines in insertion order,
inner-joined with their product row (lines whose product is gone drop out). -/
def cartRows (s : State) (uid : Nat) : List CartRow :=
  s.cartItems.filterMap (fun c =>
    if c.userId == uid then
      (findProduct s c.productId).map (fun p =>
        { productId := c.productId, quantity := c.quantity,
          price := p.price, stock := p.stock, pname := p.name })
    else none)

/-- Stock of the first product row with the given id, if any. -/
def stockOf? (s : State) (pid : Nat) : Option Int :=
  (findProduct s pid).map (·.stock)

/-- Credit of the first user row with the given id, if any. -/
def creditOf? (s : State) (uid : Nat) : Option Int :=
  (findUser s uid).map (·.credit)

/-- Status of the first order row with the given id, if any. -/
def orderStatusOf? (s : State) (oid : Nat) : Option String :=
  (findOrder s oid).map (·.status)

/-- `UPDATE products SET stock = stock + d WHERE id = ?`. -/
def adjustStock (pid : Nat) (d : Int) (ps : List Product) : List Product :=
  ps.map (fun p => if p.id == pid then { p with stock := p.stock + d } else p)

/-- A sequence of stock updates, applied left to right. -/
def bumpStocks (l : List (Nat × Int)) (ps : List Product) : List Product :=
  l.foldl (fun acc e => adjustStock e.1 e.2 acc) ps

/-- `UPDATE users SET credit = credit + d WHERE id = ?`. -/
def adjustCredit (uid : Nat) (d : Int) (us : List UserRow) : List UserRow :=
  us.map (fun u => if u.id == uid then { u with credit := u.credit + d } else u)

/-- `user.status === 'inactive' || user.status === 'suspended'`. -/
def restrictedStatus (st : String) : Bool :=
  st == "inactive" || st == "suspended"

/-- `!shipping_name || !shipping_phone || !shipping_address`
(a missing field reads as the empty string). -/
def shippingIncomplete (n p a : String) : Bool :=
  n == "" || p == "" || a == ""

/-- `cartItems.reduce((sum, item) => sum + item.price * item.quantity, 0)`. -/
def subtotalOf (rows : List CartRow) : Int :=
  rows.foldl (fun acc r => acc + r.price * r.quantity) 0

/-- `subtotal >= 799 ? 0 : 100`. -/
def shippingFee (subtotal : Int) : Int :=
  if 799 ≤ subtotal then 0 else 100

/-- The AUTOINCREMENT id the order INSERT will receive: one past the
largest id in the table. -/
def freshOrderId (s : State) : Nat :=
  (s.orders.map (·.id)).foldl max 0 + 1

/-- The total the settlement route computes: cart subtotal at current
prices plus the shipping fee. -/
def settleTotal (s : State) (uid : Nat) : Int :=
  subtotalOf (cartRows s uid) + shippingFee (subtotalOf (cartRows s uid))

/-- Request body of `POST /api/orders`. -/
structure SettleReq where
  shippingName : String
  shippingPhone : String
  shippingAddress : String
  notes : Option String
  deriving Repr, DecidableEq

/-- The distinct rejections of the settlement route, in source order. -/
inductive SettleError
  | userNotFound
  | accountRestricted
  | incompleteShipping
  | emptyCart
  | insufficientStock (pname : String)
  | insufficientCredit
  | storageLookup
  deriving Repr, DecidableEq

/-- The order header the settlement route inserts (status defaults to
`pending`, reason and note are NULL). -/
def settleOrderRecord (s : State) (uid : Nat) (req : SettleReq) (orderNumber : String) : Order :=
  { id := freshOrderId s, userId := uid, orderNumber := orderNumber,
    totalAmount := settleTotal s uid, status := "pending",
    shippingName := req.shippingName, shippingPhone := req.shippingPhone,
    shippingAddress := req.shippingAddress, notes := req.notes,
    cancelReason := none, adminNote := none }

/-- `INSERT INTO order_items ... VALUES (orderId, product_id, name, quantity, price)`. -/
def lineOf (oid : Nat) (r : CartRow) : OrderItem :=
  { orderId := oid, productId := r.productId, name := r.pname,
    unitPrice := r.price, quantity := r.quantity }

/-- The order-header INSERT. -/
def insOrderStep (o : Order) : State → State :=
  fun t => { t with orders := t.orders ++ [o] }

/-- The per-line order-item INSERT. -/
def insLineStep (oid : Nat) (r : CartRow) : State → State :=
  fun t => { t with orderItems := t.orderItems ++ [lineOf oid r] }

/-- The per-line `UPDATE products SET stock = stock - ?`. -/
def decStockStep (r : CartRow) : State → State :=
  fun t => { t with products := adjustStock r.productId (-r.quantity) t.products }

/-- `UPDATE users SET credit = credit - ? WHERE id = ?`. -/
def debitCreditStep (uid : Nat) (total : Int) : State → State :=
  fun t => { t with users := adjustCredit uid (-total) t.users }

/-- `DELETE FROM cart_items WHERE user_id = ?`. -/
def clearCartStep (uid : Nat) : State → State :=
  fun t => { t with cartItems := t.cartItems.filter (fun c => !(c.userId == uid)) }

/-- JavaScript `String.prototype.trim` (as used on the cancel reason):
strip whitespace from both ends, written structurally so it evaluates. -/
def jsTrim (s : String) : String :=
  String.mk (((s.data.dropWhile Char.isWhitespace).reverse.dropWhile
    Char.isWhitespace).reverse)

/-- Run a list of SQL mutations left to right. -/
def applyMuts (l : List (State → State)) (s : State) : State :=
  l.foldl (fun t f => f t) s

/-- The checks of `POST /api/orders` in source order; on success, the list
of SQL mutations the route then executes (header insert, then per cart line
an order-item insert and a stock decrement, then the credit debit, then the
cart delete), together with the order id the route re-queries by
`order_number` after the header insert, and the computed total.
`.storageLookup` is the (unreachable) branch where that re-query finds
nothing. -/
def settlePlan (s : State) (uid : Nat) (req : SettleReq) (orderNumber : String) :
    Except SettleError (List (State → State) × Nat × Int) :=
  match findUser s uid with
  | none => .error .userNotFound
  | some user =>
    if restrictedStatus user.status then .error .accountRestricted
    else if shippingIncomplete req.shippingName req.shippingPhone req.shippingAddress then
      .error .incompleteShipping
    else
      let rows := cartRows s uid
      if rows.isEmpty then .error .emptyCart
      else
        match rows.find? (fun r => decide (r.stock < r.quantity)) with
        | some bad => .error (.insufficientStock bad.pname)
        | none =>
          let total := settleTotal s uid
          if user.credit < total then .error .insufficientCredit
          else
            let newOrder : Order := settleOrderRecord s uid req orderNumber
            match (s.orders ++ [newOrder]).find? (fun o => o.orderNumber == orderNumber) with
            | none => .error .storageLookup
            | some found =>
              .ok (insOrderStep newOrder ::
                     (rows.map (fun r => [insLineStep found.id r, decStockStep r])).flatten ++
                     [debitCreditStep uid total, clearCartStep uid],
                   found.id, total)

/-- `POST /api/orders`: reject before any write, or run every mutation of
the plan (the route wraps nothing in a transaction, so success applies them
all in order).  Returns (order id, total_amount) on success. -/
def settle (s : State) (uid : Nat) (req : SettleReq) (orderNumber : String) :
    Except SettleError (Nat × Int) × State :=
  match settlePlan s uid req orderNumber with
  | .error e => (.error e, s)
  | .ok (muts, oid, total) => (.ok (oid, total), applyMuts muts s)

/-- The database state after the first `k` SQL mutations of a settlement
whose checks all passed: because the route uses no transaction, this is
exactly what persists when the `(k+1)`-st statement throws a storage error
(the catch block only answers 500, it rolls nothing back). -/
def settleAfterSteps (s : State) (uid : Nat) (req : SettleReq)
    (orderNumber : String) (k : Nat) : State :=
  match settlePlan s uid req orderNumber with
  | .error _ => s
  | .ok (muts, _, _) => applyMuts (muts.take k) s

/-- The distinct rejections of `PUT /api/orders/:id/cancel`. -/
inductive CancelError
  | missingReason
  | orderNotFound
  | notPending
  deriving Repr, DecidableEq

/-- `PUT /api/orders/:id/cancel` (owner cancellation): reason check, then
ownership lookup, then the pending-only check, then stock restore per
order item, credit refund, and the status update. -/
def cancelOrder (s : State) (uid : Nat) (oid : Nat) (reason : Option String) :
    Except CancelError Unit × State :=
  match reason with
  | none => (.error .missingReason, s)
  | some r =>
    if jsTrim r == "" then (.error .missingReason, s)
    else
      match s.orders.find? (fun o => o.id == oid && o.userId == uid) with
      | none => (.error .orderNotFound, s)
      | some order =>
        if !(order.status == "pending") then (.error .notPending, s)
        else
          let items : List OrderItem := s.orderItems.filter (fun i => i.orderId == order.id)
          let s1 : State := { s with
            products := bumpStocks (items.map (fun i => (i.productId, i.quantity))) s.products }
          let s2 : State := { s1 with users := adjustCredit uid order.totalAmount s1.users }
          let s3 : State := { s2 with orders := s2.orders.map (fun o =>
              if o.id == oid then { o with status := "cancelled", cancelReason := some (jsTrim r) }
              else o) }
          (.ok (), s3)

/-- The distinct rejections of `PUT /api/admin/orders/:id/status`. -/
inductive AdminError
  | invalidStatus
  | orderNotFound
  deriving Repr, DecidableEq

/-- The route's `validStatuses` array. -/
def validStatuses : List String :=
  ["pending", "processing", "shipped", "completed", "cancelled"]

/-- JavaScript `x || null` on an optional string field of the body. -/
def orNull (x : Option String) : Option String :=
  match x with
  | some v => if v == "" then none else some v
  | none => none

/-- `PUT /api/admin/orders/:id/status`: accept any status of
`validStatuses` for any existing order; when the new status is `cancelled`
and the current one is not, restore stock per order item and refund the
owner's credit; then write the status (plus reason/note when cancelling). -/
def adminSetStatus (s : State) (oid : Nat) (status : String)
    (cancelReason adminNote : Option String) :
    Except AdminError Unit × State :=
  if !(validStatuses.contains status) then (.error .invalidStatus, s)
  else
    match s.orders.find? (fun o => o.id == oid) with
    | none => (.error .orderNotFound, s)
    | some order =>
      let s1 : State :=
        if status == "cancelled" && !(order.status == "cancelled") then
          let items : List OrderItem := s.orderItems.filter (fun i => i.orderId == order.id)
          let sA : State := { s with
            products := bumpStocks (items.map (fun i => (i.productId, i.quantity))) s.products }
          { sA with users := adjustCredit order.userId order.totalAmount sA.users }
        else s
      let s2 : State :=
        if status == "cancelled" then
          { s1 with orders := s1.orders.map (fun o =>
              if o.id == oid then
                { o with status := status, cancelReason := orNull cancelReason,
                         adminNote := orNull adminNote }
              else o) }
        else
          { s1 with orders := s1.orders.map (fun o =>
              if o.id == oid then { o with status := status } else o) }
      (.ok (), s2)

/-- The distinct rejections of `PUT /api/admin/members/:id/credit`. -/
inductive CreditError
  | memberNotFound
  | invalidCreditInput
  | negativeCredit
  deriving Repr, DecidableEq

/-- `PUT /api/admin/members/:id/credit`: adjust (when `adjustment` is a
number) or set (when `credit` is) a non-admin member's credit, rejecting a
negative result. -/
def adminSetCredit (s : State) (memberId : Nat) (credit adjustment : Option Int) :
    Except CreditError Int × State :=
  match s.users.find? (fun u => u.id == memberId && !u.isAdmin) with
  | none => (.error .memberNotFound, s)
  | some existing =>
    let newCredit? : Option Int :=
      match adjustment with
      | some adj => some (existing.credit + adj)
      | none => credit
    match newCredit? with
    | none => (.error .invalidCreditInput, s)
    | some nc =>
      if nc < 0 then (.error .negativeCredit, s)
      else (.ok nc,
        { s with users := s.users.map (fun u =>
            if u.id == memberId then { u with credit := nc } else u) })

/-- One call of any of the four mutating routes. -/
inductive Op
  | settleOp (uid : Nat) (req : SettleReq) (orderNumber : String)
  | cancelOp (uid : Nat) (oid : Nat) (reason : Option String)
  | adminStatusOp (oid : Nat) (status : String) (cancelReason adminNote : Option String)
  | adminCreditOp (memberId : Nat) (credit adjustment : Option Int)

/-- The state after one route call (its response discarded). -/
def applyOp (s : State) : Op → State
  | .settleOp uid req n => (settle s uid req n).2
  | .cancelOp uid oid r => (cancelOrder s uid oid r).2
  | .adminStatusOp oid st cr an => (adminSetStatus s oid st cr an).2
  | .adminCreditOp mid c adj => (adminSetCredit s mid c adj).2

/-- The state after a sequence of route calls. -/
def applyOps (ops : List Op) (s : State) : State :=
  ops.foldl applyOp s

/-- Stock of the first product row with the given id in a product list. -/
def stockIn (ps : List Product) (pid : Nat) : Option Int :=
  (ps.find? (fun p => p.id == pid)).map (·.stock)

/-- Credit of the first user row with the given id in a user list. -/
def creditIn (us : List UserRow) (uid : Nat) : Option Int :=
  (us.find? (fun u => u.id == uid)).map (·.credit)

/-- Net stock delta a list of `(product id, delta)` updates applies to one
product id. -/
def sumD (pid : Nat) (l : List (Nat × Int)) : Int :=
  (l.map (fun e => if e.1 = pid then e.2 else 0)).sum

/-- System invariant maintained by the stores and routes: primary-key ids
are unique, stock, price, credit, quantities and totals are non-negative,
and cart lines are unique per (user, product) — the cart route merges
duplicate lines instead of inserting a second row. -/
def Inv (s : State) : Prop :=
  (s.products.map (·.id)).Nodup ∧
  (s.users.map (·.id)).Nodup ∧
  (∀ p ∈ s.products, 0 ≤ p.stock ∧ 0 ≤ p.price) ∧
  (∀ u ∈ s.users, 0 ≤ u.credit) ∧
  (∀ c ∈ s.cartItems, 0 ≤ c.quantity) ∧
  (s.cartItems.map (fun c => (c.userId, c.productId))).Nodup ∧
  (∀ i ∈ s.orderItems, 0 ≤ i.quantity) ∧
  (∀ o ∈ s.orders, 0 ≤ o.totalAmount)

instance (s : State) : Decidable (Inv s) := by
  unfold Inv
  infer_instance

/-! ### Concrete fixtures -/

/-- A complete shipping request. -/
def reqA : SettleReq :=
  { shippingName := "Amy", shippingPhone := "0912", shippingAddress := "Road 1", notes := none }

def prodApple : Product := { id := 1, name := "apple", price := 600, stock := 5 }

def prodPear : Product := { id := 2, name := "pear", price := 50, stock := 4 }

def userActive : UserRow := { id := 1, status := "active", credit := 1000, isAdmin := false }

def userSuspended : UserRow := { id := 2, status := "suspended", credit := 300, isAdmin := false }

def cartApple : CartItem := { userId := 1, productId := 1, quantity := 1 }

def cartPear : CartItem := { userId := 1, productId := 2, quantity := 2 }

/-- Active user, two products, two cart lines, no orders yet. -/
def stBase : State :=
  { products := [prodApple, prodPear], users := [userActive],
    cartItems := [cartApple, cartPear], orders := [], orderItems := [] }

def orderPending : Order :=
  { id := 1, userId := 1, orderNumber := "FP1", totalAmount := 700, status := "pending",
    shippingName := "Amy", shippingPhone := "0912", shippingAddress := "Road 1",
    notes := none, cancelReason := none, adminNote := none }

def itemApple : OrderItem :=
  { orderId := 1, productId := 1, name := "apple", unitPrice := 600, quantity := 1 }

/-- One pending order (id 1, total 700) with one line of one apple. -/
def stPendingOrder : State :=
  { products := [prodApple], users := [userActive], cartItems := [],
    orders := [orderPending], orderItems := [itemApple] }

/-- Same, but the order is already completed. -/
def stCompletedOrder : State :=
  { stPendingOrder with orders := [{ orderPending with status := "completed" }] }

/-- Same, but the order is already cancelled. -/
def stCancelledOrder : State :=
  { stPendingOrder with
    orders := [{ orderPending with status := "cancelled", cancelReason := some "late" }] }

/-- A suspended member owning a pending order. -/
def stSuspendedOwner : State :=
  { products := [prodApple], users := [userSuspended], cartItems := [],
    orders := [{ orderPending with userId := 2 }], orderItems := [itemApple] }

/-- The apple is out of stock but still sits in the cart. -/
def stShortStock : State :=
  { products := [{ prodApple with stock := 0 }], users := [userActive],
    cartItems := [cartApple], orders := [], orderItems := [] }

/-! ### Basic mutation lemmas -/

theorem applyMuts_nil (s : State) : applyMuts [] s = s := rfl

theorem applyMuts_cons (f : State → State) (l : List (State → State)) (s : State) :
    applyMuts (f :: l) s = applyMuts l (f s) := rfl

theorem applyMuts_append (l1 l2 : List (State → State)) (s : State) :
    applyMuts (l1 ++ l2) s = applyMuts l2 (applyMuts l1 s) := by
  simp [applyMuts, List.foldl_append]

theorem bumpStocks_nil (ps : List Product) : bumpStocks [] ps = ps := rfl

theorem bumpStocks_cons (e : Nat × Int) (l : List (Nat × Int)) (ps : List Product) :
    bumpStocks (e :: l) ps = bumpStocks l (adjustStock e.1 e.2 ps) := rfl

/-- The interleaved per-line loop (order-item insert, stock decrement)
splits into one bulk order-item append and one bulk stock update. -/
theorem applyMuts_lines (oid : Nat) (rows : List CartRow) (t : State) :
    applyMuts ((rows.map (fun r => [insLineStep oid r, decStockStep r])).flatten) t =
      { t with orderItems := t.orderItems ++ rows.map (lineOf oid),
               products := bumpStocks (rows.map (fun r => (r.productId, -r.quantity))) t.products } := by
  induction rows generalizing t with
  | nil => simp [applyMuts, bumpStocks]
  | cons r rs ih =>
    simp only [List.map_cons, List.flatten_cons, List.cons_append, List.nil_append,
      applyMuts_cons, ih, insLineStep, decStockStep, bumpStocks_cons]
    simp [List.append_assoc]

/-- The whole settlement mutation list, decomposed table by table. -/
theorem applyMuts_settle (nw : Order) (oid uid : Nat) (total : Int)
    (rows : List CartRow) (s : State) :
    applyMuts (insOrderStep nw ::
        (rows.map (fun r => [insLineStep oid r, decStockStep r])).flatten ++
        [debitCreditStep uid total, clearCartStep uid]) s =
      { s with orders := s.orders ++ [nw],
               orderItems := s.orderItems ++ rows.map (lineOf oid),
               products := bumpStocks (rows.map (fun r => (r.productId, -r.quantity))) s.products,
               users := adjustCredit uid (-total) s.users,
               cartItems := s.cartItems.filter (fun c => !(c.userId == uid)) } := by
  rw [applyMuts_append, applyMuts_cons (insOrderStep nw), applyMuts_lines]
  simp [applyMuts, insOrderStep, debitCreditStep, clearCartStep]

/-- A settlement that answers an error has written nothing. -/
theorem settle_err_snd (s : State) (uid : Nat) (req : SettleReq) (n : String)
    (e : SettleError) (h : (settle s uid req n).1 = .error e) :
    (settle s uid req n).2 = s := by
  cases hp : settlePlan s uid req n with
  | error e' => simp [settle, hp]
  | ok x =>
    obtain ⟨m, oid, t⟩ := x
    simp [settle, hp] at h

/-! ### Settlement check characterization -/

theorem settlePlan_user_missing (s : State) (uid : Nat) (req : SettleReq) (n : String)
    (hu : findUser s uid = none) :
    settlePlan s uid req n = .error .userNotFound := by
  simp [settlePlan, hu]

theorem settlePlan_restricted (s : State) (uid : Nat) (req : SettleReq) (n : String)
    (u : UserRow) (hu : findUser s uid = some u)
    (hr : restrictedStatus u.status = true) :
    settlePlan s uid req n = .error .accountRestricted := by
  simp [settlePlan, hu, hr]

theorem settlePlan_shipping (s : State) (uid : Nat) (req : SettleReq) (n : String)
    (u : UserRow) (hu : findUser s uid = some u)
    (hr : restrictedStatus u.status = false)
    (hs : shippingIncomplete req.shippingName req.shippingPhone req.shippingAddress = true) :
    settlePlan s uid req n = .error .incompleteShipping := by
  simp [settlePlan, hu, hr, hs]

theorem settlePlan_emptyCart (s : State) (uid : Nat) (req : SettleReq) (n : String)
    (u : UserRow) (hu : findUser s uid = some u)
    (hr : restrictedStatus u.status = false)
    (hs : shippingIncomplete req.shippingName req.shippingPhone req.shippingAddress = false)
    (hc : cartRows s uid = []) :
    settlePlan s uid req n = .error .emptyCart := by
  simp [settlePlan, hu, hr, hs, hc]

theorem settlePlan_badStock (s : State) (uid : Nat) (req : SettleReq) (n : String)
    (u : UserRow) (bad : CartRow) (hu : findUser s uid = some u)
    (hr : restrictedStatus u.status = false)
    (hs : shippingIncomplete req.shippingName req.shippingPhone req.shippingAddress = false)
    (hb : (cartRows s uid).find? (fun r => decide (r.stock < r.quantity)) = some bad) :
    settlePlan s uid req n = .error (.insufficientStock bad.pname) := by
  have hne : (cartRows s uid).isEmpty = false := by
    cases hcr : cartRows s uid with
    | nil => rw [hcr] at hb; simp at hb
    | cons a l => simp [List.isEmpty]
  simp [settlePlan, hu, hr, hs, hne, hb]

theorem settlePlan_badCredit (s : State) (uid : Nat) (req : SettleReq) (n : String)
    (u : UserRow) (hu : findUser s uid = some u)
    (hr : restrictedStatus u.status = false)
    (hs : shippingIncomplete req.shippingName req.shippingPhone req.shippingAddress = false)
    (hne : cartRows s uid ≠ [])
    (hok : (cartRows s uid).find? (fun r => decide (r.stock < r.quantity)) = none)
    (hcred : u.credit < settleTotal s uid) :
    settlePlan s uid req n = .error .insufficientCredit := by
  have hne' : (cartRows s uid).isEmpty = false := by
    cases hcr : cartRows s uid with
    | nil => exact absurd hcr hne
    | cons a l => simp [List.isEmpty]
  simp [settlePlan, hu, hr, hs, hne', hok, hcred]

/-- Everything a successful settlement plan tells us: all five checks
passed, the total is the computed one, the order id comes from the
re-query by order number, and the mutation list is the source's. -/
theorem settlePlan_ok_spec (s : State) (uid : Nat) (req : SettleReq) (n : String)
    (muts : List (State → State)) (oid : Nat) (total : Int)
    (h : settlePlan s uid req n = .ok (muts, oid, total)) :
    total = settleTotal s uid ∧
    (∃ u, findUser s uid = some u ∧ restrictedStatus u.status = false ∧
      shippingIncomplete req.shippingName req.shippingPhone req.shippingAddress = false ∧
      cartRows s uid ≠ [] ∧
      (cartRows s uid).find? (fun r => decide (r.stock < r.quantity)) = none ∧
      ¬ u.credit < settleTotal s uid) ∧
    (∃ found, (s.orders ++ [settleOrderRecord s uid req n]).find?
        (fun o => o.orderNumber == n) = some found ∧ oid = found.id) ∧
    muts = (insOrderStep (settleOrderRecord s uid req n) ::
        ((cartRows s uid).map (fun r => [insLineStep oid r, decStockStep r])).flatten) ++
        [debitCreditStep uid total, clearCartStep uid] := by
  unfold settlePlan at h
  cases hu : findUser s uid with
  | none => rw [hu] at h; simp at h
  | some u =>
    rw [hu] at h
    cases hr : restrictedStatus u.status with
    | true => simp [hr] at h
    | false =>
      cases hs : shippingIncomplete req.shippingName req.shippingPhone req.shippingAddress with
      | true => simp [hr, hs] at h
      | false =>
        cases hcr : (cartRows s uid).isEmpty with
        | true => simp [hr, hs, hcr] at h
        | false =>
          cases hb : (cartRows s uid).find? (fun r => decide (r.stock < r.quantity)) with
          | some bad => simp [hr, hs, hcr, hb] at h
          | none =>
            cases hcred : decide (u.credit < settleTotal s uid) with
            | true =>
              have : u.credit < settleTotal s uid := of_decide_eq_true hcred
              simp [hr, hs, hcr, hb, this] at h
            | false =>
              have hcred' : ¬ u.credit < settleTotal s uid := of_decide_eq_false hcred
              cases hf : (s.orders ++ [settleOrderRecord s uid req n]).find?
                  (fun o => o.orderNumber == n) with
              | none => simp [hr, hs, hcr, hb, hcred', hf] at h
              | some found =>
                simp only [hr, hs, hcr, hb, hcred', hf, Bool.false_eq_true, if_false,
                  if_neg hcred', Except.ok.injEq, Prod.mk.injEq] at h
                obtain ⟨hm, ho, ht⟩ := h
                subst ht
                subst ho
                subst hm
                refine ⟨rfl, ⟨u, ?_, ?_, ?_, ?_, ?_, hcred'⟩, ⟨found, ?_, rfl⟩, rfl⟩ <;>
                  first
                    | rfl
                    | assumption
                    | (intro hnil; rw [hnil] at hcr; simp at hcr)

/-! ### Observer lemmas for stock and credit -/

theorem stockOf?_eq_stockIn (s : State) (pid : Nat) :
    stockOf? s pid = stockIn s.products pid := rfl

theorem creditOf?_eq_creditIn (s : State) (uid : Nat) :
    creditOf? s uid = creditIn s.users uid := rfl

theorem stockIn_cons_pos (p : Product) (ps : List Product) (pid : Nat)
    (h : p.id = pid) : stockIn (p :: ps) pid = some p.stock := by
  unfold stockIn
  rw [@List.find?_cons_of_pos _ (fun q => q.id == pid) p ps (by simp [h])]
  rfl

theorem stockIn_cons_neg (p : Product) (ps : List Product) (pid : Nat)
    (h : ¬ p.id = pid) : stockIn (p :: ps) pid = stockIn ps pid := by
  unfold stockIn
  rw [@List.find?_cons_of_neg _ (fun q => q.id == pid) p ps (by simp [h])]

theorem adjustStock_cons (pid' : Nat) (d : Int) (p : Product) (ps : List Product) :
    adjustStock pid' d (p :: ps) =
      (if p.id == pid' then { p with stock := p.stock + d } else p) :: adjustStock pid' d ps := rfl

theorem stockIn_adjustStock (ps : List Product) (pid pid' : Nat) (d : Int) :
    stockIn (adjustStock pid' d ps) pid =
      (stockIn ps pid).map (fun x => x + (if pid' = pid then d else 0)) := by
  induction ps with
  | nil => rfl
  | cons p ps ih =>
    rw [adjustStock_cons]
    by_cases hp : p.id = pid
    · have hqid : (if p.id == pid' then { p with stock := p.stock + d } else p).id = pid := by
        split <;> simpa using hp
      rw [stockIn_cons_pos _ _ _ hqid, stockIn_cons_pos _ _ _ hp]
      by_cases hpp : p.id = pid'
      · have : pid' = pid := by omega
        simp [hpp, this]
      · have : ¬ pid' = pid := by omega
        simp [hpp, this]
    · have hqid : ¬ (if p.id == pid' then { p with stock := p.stock + d } else p).id = pid := by
        split <;> simpa using hp
      rw [stockIn_cons_neg _ _ _ hqid, stockIn_cons_neg _ _ _ hp, ih]

theorem sumD_cons (pid : Nat) (e : Nat × Int) (l : List (Nat × Int)) :
    sumD pid (e :: l) = (if e.1 = pid then e.2 else 0) + sumD pid l := by
  simp [sumD]

theorem stockIn_bumpStocks (l : List (Nat × Int)) (ps : List Product) (pid : Nat) :
    stockIn (bumpStocks l ps) pid = (stockIn ps pid).map (fun x => x + sumD pid l) := by
  induction l generalizing ps with
  | nil =>
    cases h : stockIn ps pid <;> simp [bumpStocks, sumD, h]
  | cons e l ih =>
    rw [bumpStocks_cons, ih, stockIn_adjustStock, sumD_cons]
    cases h : stockIn ps pid with
    | none => simp [h]
    | some v => simp [h]; omega

theorem creditIn_cons_pos (u : UserRow) (us : List UserRow) (uid : Nat)
    (h : u.id = uid) : creditIn (u :: us) uid = some u.credit := by
  unfold creditIn
  rw [@List.find?_cons_of_pos _ (fun q => q.id == uid) u us (by simp [h])]
  rfl

theorem creditIn_cons_neg (u : UserRow) (us : List UserRow) (uid : Nat)
    (h : ¬ u.id = uid) : creditIn (u :: us) uid = creditIn us uid := by
  unfold creditIn
  rw [@List.find?_cons_of_neg _ (fun q => q.id == uid) u us (by simp [h])]

theorem adjustCredit_cons (uid' : Nat) (d : Int) (u : UserRow) (us : List UserRow) :
    adjustCredit uid' d (u :: us) =
      (if u.id == uid' then { u with credit := u.credit + d } else u) :: adjustCredit uid' d us := rfl

theorem creditIn_adjustCredit (us : List UserRow) (uid uid' : Nat) (d : Int) :
    creditIn (adjustCredit uid' d us) uid =
      (creditIn us uid).map (fun x => x + (if uid' = uid then d else 0)) := by
  induction us with
  | nil => rfl
  | cons u us ih =>
    rw [adjustCredit_cons]
    by_cases hu : u.id = uid
    · have hqid : (if u.id == uid' then { u with credit := u.credit + d } else u).id = uid := by
        split <;> simpa using hu
      rw [creditIn_cons_pos _ _ _ hqid, creditIn_cons_pos _ _ _ hu]
      by_cases huu : u.id = uid'
      · have : uid' = uid := by omega
        simp [huu, this]
      · have : ¬ uid' = uid := by omega
        simp [huu, this]
    · have hqid : ¬ (if u.id == uid' then { u with credit := u.credit + d } else u).id = uid := by
        split <;> simpa using hu
      rw [creditIn_cons_neg _ _ _ hqid, creditIn_cons_neg _ _ _ hu, ih]

/-! ### Success-path state characterizations -/

/-- The state a successful settlement leaves behind, table by table. -/
theorem settle_ok_state (s : State) (uid : Nat) (req : SettleReq) (n : String)
    (oid : Nat) (total : Int)
    (h : (settle s uid req n).1 = .ok (oid, total)) :
    (settle s uid req n).2 =
      { s with orders := s.orders ++ [settleOrderRecord s uid req n],
               orderItems := s.orderItems ++ (cartRows s uid).map (lineOf oid),
               products := bumpStocks
                 ((cartRows s uid).map (fun r => (r.productId, -r.quantity))) s.products,
               users := adjustCredit uid (-total) s.users,
               cartItems := s.cartItems.filter (fun c => !(c.userId == uid)) } := by
  cases hp : settlePlan s uid req n with
  | error e => simp [settle, hp] at h
  | ok x =>
    obtain ⟨muts, oid', total'⟩ := x
    have hspec := settlePlan_ok_spec s uid req n muts oid' total' hp
    have h1 : (settle s uid req n).1 = .ok (oid', total') := by simp [settle, hp]
    rw [h1] at h
    simp only [Except.ok.injEq, Prod.mk.injEq] at h
    obtain ⟨ho, ht⟩ := h
    subst ho
    subst ht
    have h2 : (settle s uid req n).2 = applyMuts muts s := by simp [settle, hp]
    rw [h2, hspec.2.2.2]
    exact applyMuts_settle _ _ _ _ _ _

/-- A successful settlement's total is the computed subtotal plus fee. -/
theorem settle_ok_total (s : State) (uid : Nat) (req : SettleReq) (n : String)
    (oid : Nat) (total : Int)
    (h : (settle s uid req n).1 = .ok (oid, total)) :
    total = settleTotal s uid := by
  cases hp : settlePlan s uid req n with
  | error e => simp [settle, hp] at h
  | ok x =>
    obtain ⟨muts, oid', total'⟩ := x
    have hspec := settlePlan_ok_spec s uid req n muts oid' total' hp
    have h1 : (settle s uid req n).1 = .ok (oid', total') := by simp [settle, hp]
    rw [h1] at h
    simp only [Except.ok.injEq, Prod.mk.injEq] at h
    exact h.2 ▸ hspec.1

/-- A successful settlement passed every one of the five checks. -/
theorem settle_ok_checks (s : State) (uid : Nat) (req : SettleReq) (n : String)
    (oid : Nat) (total : Int)
    (h : (settle s uid req n).1 = .ok (oid, total)) :
    ∃ u, findUser s uid = some u ∧ restrictedStatus u.status = false ∧
      shippingIncomplete req.shippingName req.shippingPhone req.shippingAddress = false ∧
      cartRows s uid ≠ [] ∧
      (cartRows s uid).find? (fun r => decide (r.stock < r.quantity)) = none ∧
      ¬ u.credit < settleTotal s uid := by
  cases hp : settlePlan s uid req n with
  | error e => simp [settle, hp] at h
  | ok x =>
    obtain ⟨muts, oid', total'⟩ := x
    exact (settlePlan_ok_spec s uid req n muts oid' total' hp).2.1

/-! ### Fresh-id and lookup lemmas -/

theorem le_foldl_max (l : List Nat) (b : Nat) : b ≤ l.foldl max b := by
  induction l generalizing b with
  | nil => exact le_refl b
  | cons x xs ih => exact le_trans (le_max_left b x) (ih (max b x))

theorem mem_le_foldl_max (l : List Nat) (a b : Nat) (h : a ∈ l) : a ≤ l.foldl max b := by
  induction l generalizing b with
  | nil => cases h
  | cons x xs ih =>
    cases h with
    | head => exact le_trans (le_max_right b a) (le_foldl_max xs (max b a))
    | tail _ hmem => exact ih (max b x) hmem

/-- Every existing order id is strictly below the freshly assigned one. -/
theorem lt_freshOrderId (s : State) (o : Order) (h : o ∈ s.orders) :
    o.id < freshOrderId s := by
  have : o.id ≤ (s.orders.map (·.id)).foldl max 0 :=
    mem_le_foldl_max _ _ _ (List.mem_map_of_mem _ h)
  unfold freshOrderId
  omega

/-- With a fresh order number, the settlement re-query returns the new
header, so the returned id is the fresh one. -/
theorem settle_ok_oid (s : State) (uid : Nat) (req : SettleReq) (n : String)
    (oid : Nat) (total : Int)
    (hfresh : ∀ o ∈ s.orders, o.orderNumber ≠ n)
    (h : (settle s uid req n).1 = .ok (oid, total)) :
    oid = freshOrderId s := by
  cases hp : settlePlan s uid req n with
  | error e => simp [settle, hp] at h
  | ok x =>
    obtain ⟨muts, oid', total'⟩ := x
    have hspec := settlePlan_ok_spec s uid req n muts oid' total' hp
    obtain ⟨found, hf, hoid⟩ := hspec.2.2.1
    have h1 : (settle s uid req n).1 = .ok (oid', total') := by simp [settle, hp]
    rw [h1] at h
    simp only [Except.ok.injEq, Prod.mk.injEq] at h
    have hnone : s.orders.find? (fun o => o.orderNumber == n) = none := by
      rw [List.find?_eq_none]
      intro o ho
      simpa using hfresh o ho
    rw [List.find?_append, hnone, Option.none_or] at hf
    have hbeq : ((settleOrderRecord s uid req n).orderNumber == n) = true := by
      simp [settleOrderRecord]
    rw [@List.find?_cons_of_pos _ (fun o => o.orderNumber == n)
      (settleOrderRecord s uid req n) [] hbeq] at hf
    have hfound : found = settleOrderRecord s uid req n := by
      cases hf
      rfl
    rw [← h.1, hoid, hfound]
    rfl

/-! ### Cancellation characterization -/

/-- A rejected owner cancellation has written nothing. -/
theorem cancel_err_snd (s : State) (uid oid : Nat) (reason : Option String)
    (e : CancelError) (h : (cancelOrder s uid oid reason).1 = .error e) :
    (cancelOrder s uid oid reason).2 = s := by
  cases reason with
  | none => rfl
  | some r =>
    by_cases ht : jsTrim r = ""
    · simp [cancelOrder, ht]
    · cases hf : s.orders.find? (fun o => o.id == oid && o.userId == uid) with
      | none => simp [cancelOrder, ht, hf]
      | some order =>
        by_cases hs : order.status = "pending"
        · simp [cancelOrder, ht, hf, hs] at h
        · simp [cancelOrder, ht, hf, hs]

/-- A blank or missing reason is rejected before anything else. -/
theorem cancel_blank_reason (s : State) (uid oid : Nat) (reason : Option String)
    (h : reason = none ∨ ∃ r, reason = some r ∧ jsTrim r = "") :
    cancelOrder s uid oid reason = (.error .missingReason, s) := by
  cases h with
  | inl hn => rw [hn]; rfl
  | inr he =>
    obtain ⟨r, hr, ht⟩ := he
    rw [hr]
    simp [cancelOrder, ht]

/-- An owner cancellation of a non-pending order is rejected unchanged. -/
theorem cancel_not_pending (s : State) (uid oid : Nat) (r : String) (order : Order)
    (ht : jsTrim r ≠ "")
    (hf : s.orders.find? (fun o => o.id == oid && o.userId == uid) = some order)
    (hs : order.status ≠ "pending") :
    cancelOrder s uid oid (some r) = (.error .notPending, s) := by
  simp [cancelOrder, ht, hf, hs]

/-- An owner cancellation of a pending order succeeds and performs exactly
the stock restore, the credit refund and the status update. -/
theorem cancel_ok_state (s : State) (uid oid : Nat) (r : String) (order : Order)
    (ht : jsTrim r ≠ "")
    (hf : s.orders.find? (fun o => o.id == oid && o.userId == uid) = some order)
    (hs : order.status = "pending") :
    cancelOrder s uid oid (some r) =
      (.ok (), { s with
        products := bumpStocks
          (((s.orderItems.filter (fun i => i.orderId == order.id)).map
            (fun i => (i.productId, i.quantity)))) s.products,
        users := adjustCredit uid order.totalAmount s.users,
        orders := s.orders.map (fun o =>
          if o.id == oid then { o with status := "cancelled", cancelReason := some (jsTrim r) }
          else o) }) := by
  simp [cancelOrder, ht, hf, hs]

/-! ### Admin status-route characterization -/

/-- Setting `cancelled` on an order that is not yet cancelled refunds
stock and credit and then writes the status. -/
theorem adminSetStatus_cancel_refund (s : State) (oid : Nat)
    (cr an : Option String) (order : Order)
    (hf : s.orders.find? (fun o => o.id == oid) = some order)
    (hs : order.status ≠ "cancelled") :
    adminSetStatus s oid "cancelled" cr an =
      (.ok (), { s with
        products := bumpStocks
          (((s.orderItems.filter (fun i => i.orderId == order.id)).map
            (fun i => (i.productId, i.quantity)))) s.products,
        users := adjustCredit order.userId order.totalAmount s.users,
        orders := (s.orders.map (fun o =>
          if o.id == oid then
            { o with status := "cancelled", cancelReason := orNull cr,
                     adminNote := orNull an }
          else o)) }) := by
  simp [adminSetStatus, validStatuses, hf, hs]

/-- Setting `cancelled` on an already-cancelled order is accepted but
skips the refund: only the order row is rewritten. -/
theorem adminSetStatus_cancel_skip (s : State) (oid : Nat)
    (cr an : Option String) (order : Order)
    (hf : s.orders.find? (fun o => o.id == oid) = some order)
    (hs : order.status = "cancelled") :
    adminSetStatus s oid "cancelled" cr an =
      (.ok (), { s with
        orders := (s.orders.map (fun o =>
          if o.id == oid then
            { o with status := "cancelled", cancelReason := orNull cr,
                     adminNote := orNull an }
          else o)) }) := by
  simp [adminSetStatus, validStatuses, hf, hs]

/-- A non-cancel status write touches only the order row. -/
theorem adminSetStatus_noncancel (s : State) (oid : Nat) (st : String)
    (cr an : Option String) (order : Order)
    (hv : validStatuses.contains st = true)
    (hst : st ≠ "cancelled")
    (hf : s.orders.find? (fun o => o.id == oid) = some order) :
    adminSetStatus s oid st cr an =
      (.ok (), { s with
        orders := (s.orders.map (fun o =>
          if o.id == oid then { o with status := st } else o)) }) := by
  have hm : st ∈ validStatuses := by simpa using hv
  simp [adminSetStatus, hm, hf, hst]

/-- Updating the rows with a given id leaves the others alone, so the
first row found by id is the updated one. -/
theorem find?_map_update (g : Order → Order) (hg : ∀ o, (g o).id = o.id)
    (os : List Order) (oid : Nat) :
    (os.map (fun o => if o.id == oid then g o else o)).find? (fun o => o.id == oid) =
      (os.find? (fun o => o.id == oid)).map g := by
  induction os with
  | nil => rfl
  | cons o os ih =>
    by_cases h : o.id = oid
    · have hb : (o.id == oid) = true := by simp [h]
      have hup : (if o.id == oid then g o else o) = g o := by rw [hb]; rfl
      have hgid : ((g o).id == oid) = true := by simp [hg o, h]
      simp only [List.map_cons, hup]
      rw [@List.find?_cons_of_pos _ (fun q => q.id == oid) (g o) _ hgid,
        @List.find?_cons_of_pos _ (fun q => q.id == oid) o _ hb]
      rfl
    · have hb : ¬ ((o.id == oid) = true) := by simp [h]
      have hup : (if o.id == oid then g o else o) = o := by
        simp [h]
      simp only [List.map_cons, hup]
      rw [@List.find?_cons_of_neg _ (fun q => q.id == oid) o _ hb,
        @List.find?_cons_of_neg _ (fun q => q.id == oid) o _ hb]
      exact ih

/-! ### List helpers for the invariant -/

theorem filterMap_sublist_of_imp {α β : Type} (f g : α → Option β) (l : List α)
    (h : ∀ a, f a = none ∨ f a = g a) : List.Sublist (l.filterMap f) (l.filterMap g) := by
  induction l with
  | nil => exact List.Sublist.refl _
  | cons a l ih =>
    cases hfa : f a with
    | none =>
      cases hga : g a with
      | none => simpa [List.filterMap_cons, hfa, hga] using ih
      | some b =>
        simp only [List.filterMap_cons, hfa, hga]
        exact ih.cons b
    | some b =>
      have he : f a = g a := (h a).resolve_left (by simp [hfa])
      simp only [List.filterMap_cons, hfa, ← he]
      exact ih.cons₂ b

theorem filterMap_some_eq_map {α β : Type} (f : α → β) (l : List α) :
    l.filterMap (fun a => some (f a)) = l.map f := by
  induction l with
  | nil => rfl
  | cons a l ih => simp [List.filterMap_cons, ih]

theorem nodup_snd_of_const_fst {β : Type} (lp : List (Nat × β)) (a : Nat)
    (hfst : ∀ x ∈ lp, x.1 = a) (h : lp.Nodup) : (lp.map Prod.snd).Nodup := by
  induction lp with
  | nil => simp
  | cons p lp ih =>
    rw [List.map_cons, List.nodup_cons]
    rw [List.nodup_cons] at h
    refine ⟨?_, ih (fun x hx => hfst x (List.mem_cons_of_mem p hx)) h.2⟩
    intro hmem
    obtain ⟨q, hq, hsnd⟩ := List.mem_map.mp hmem
    have hqp : q = p := by
      have h1 := hfst q (List.mem_cons_of_mem p hq)
      have h2 := hfst p (List.mem_cons_self p lp)
      cases p
      cases q
      simp_all
    exact h.1 (hqp ▸ hq)

theorem cartRows_pids_sublist (s : State) (uid : Nat) :
    List.Sublist ((cartRows s uid).map (·.productId))
      (s.cartItems.filterMap (fun c => if c.userId == uid then some c.productId else none)) := by
  unfold cartRows
  rw [List.map_filterMap]
  apply filterMap_sublist_of_imp
  intro c
  by_cases hc : (c.userId == uid) = true
  · cases hp : findProduct s c.productId with
    | none => left; simp [hc, hp]
    | some p => right; simp [hc, hp]
  · left
    simp [hc]

theorem cart_pid_filterMap_nodup (s : State) (uid : Nat)
    (h : (s.cartItems.map (fun c => (c.userId, c.productId))).Nodup) :
    (s.cartItems.filterMap (fun c => if c.userId == uid then some c.productId else none)).Nodup := by
  have heq : s.cartItems.filterMap (fun c => if c.userId == uid then some c.productId else none)
      = (s.cartItems.filterMap
          (fun c => if c.userId == uid then some (c.userId, c.productId) else none)).map
          Prod.snd := by
    rw [List.map_filterMap]
    congr 1
    funext c
    by_cases hc : (c.userId == uid) = true
    · have : c.userId = uid := by simpa using hc
      simp [hc, this]
    · simp [hc]
  rw [heq]
  apply nodup_snd_of_const_fst _ uid
  · intro x hx
    obtain ⟨c, hc, hcx⟩ := List.mem_filterMap.mp hx
    by_cases hcu : (c.userId == uid) = true
    · rw [if_pos hcu] at hcx
      cases hcx
      simpa using hcu
    · rw [if_neg hcu] at hcx
      cases hcx
  · have hsub : List.Sublist (s.cartItems.filterMap
        (fun c => if c.userId == uid then some (c.userId, c.productId) else none))
        (s.cartItems.filterMap (fun c => some (c.userId, c.productId))) := by
      apply filterMap_sublist_of_imp
      intro c
      by_cases hc : (c.userId == uid) = true
      · right; simp [hc]
      · left; simp [hc]
    rw [filterMap_some_eq_map] at hsub
    exact hsub.nodup h

theorem cartRows_pid_nodup (s : State) (uid : Nat)
    (h : (s.cartItems.map (fun c => (c.userId, c.productId))).Nodup) :
    ((cartRows s uid).map (·.productId)).Nodup :=
  (cartRows_pids_sublist s uid).nodup (cart_pid_filterMap_nodup s uid h)

/-- Every joined cart row comes from a cart line of this user and carries
that line's quantity and the product's live price, stock and name. -/
theorem mem_cartRows (s : State) (uid : Nat) (r : CartRow) (h : r ∈ cartRows s uid) :
    ∃ c ∈ s.cartItems, c.userId = uid ∧ r.productId = c.productId ∧ r.quantity = c.quantity ∧
      ∃ p, findProduct s r.productId = some p ∧ r.price = p.price ∧ r.stock = p.stock ∧
        r.pname = p.name := by
  obtain ⟨c, hc, hcr⟩ := List.mem_filterMap.mp h
  by_cases hcu : (c.userId == uid) = true
  · rw [if_pos hcu] at hcr
    cases hp : findProduct s c.productId with
    | none => rw [hp] at hcr; cases hcr
    | some p =>
      rw [hp] at hcr
      cases hcr
      exact ⟨c, hc, by simpa using hcu, rfl, rfl, p, hp, rfl, rfl, rfl⟩
  · rw [if_neg hcu] at hcr
    cases hcr

theorem nodup_find?_self {α : Type} (f : α → Nat) (l : List α)
    (h : (l.map f).Nodup) (x : α) (hx : x ∈ l) :
    l.find? (fun y => f y == f x) = some x := by
  induction l with
  | nil => cases hx
  | cons a l ih =>
    rw [List.map_cons, List.nodup_cons] at h
    cases hx with
    | head => exact List.find?_cons_of_pos _ (by simp)
    | tail _ hmem =>
      have hne : ¬ f a = f x := by
        intro he
        exact h.1 (he ▸ List.mem_map_of_mem f hmem)
      rw [@List.find?_cons_of_neg _ (fun y => f y == f x) a l (by simp [hne])]
      exact ih h.2 hmem

/-! ### sumD arithmetic -/

theorem sumD_nonneg (pid : Nat) (l : List (Nat × Int)) (h : ∀ e ∈ l, 0 ≤ e.2) :
    0 ≤ sumD pid l := by
  induction l with
  | nil => simp [sumD]
  | cons e l ih =>
    rw [sumD_cons]
    have h1 := h e (List.mem_cons_self e l)
    have h2 := ih (fun x hx => h x (List.mem_cons_of_mem e hx))
    by_cases he : e.1 = pid
    · simp only [if_pos he]; omega
    · simp only [if_neg he]; omega

theorem sumD_not_mem (pid : Nat) (l : List (Nat × Int)) (h : pid ∉ l.map Prod.fst) :
    sumD pid l = 0 := by
  induction l with
  | nil => rfl
  | cons e l ih =>
    rw [List.map_cons] at h
    rw [sumD_cons, ih (fun hm => h (List.mem_cons_of_mem _ hm))]
    have : ¬ e.1 = pid := fun he => h (he ▸ List.mem_cons_self e.1 _)
    simp [this]

theorem sumD_nodup_mem (pid : Nat) (l : List (Nat × Int))
    (h : (l.map Prod.fst).Nodup) (e : Nat × Int) (he : e ∈ l) (hp : e.1 = pid) :
    sumD pid l = e.2 := by
  induction l with
  | nil => cases he
  | cons a l ih =>
    rw [List.map_cons, List.nodup_cons] at h
    cases he with
    | head =>
      rw [sumD_cons, if_pos hp, sumD_not_mem pid l (hp ▸ h.1)]
      omega
    | tail _ hmem =>
      have hne : ¬ a.1 = pid := by
        intro ha
        exact h.1 (ha ▸ hp ▸ List.mem_map_of_mem Prod.fst hmem)
      rw [sumD_cons, if_neg hne, ih h.2 hmem]
      omega

theorem sumD_map_neg (pid : Nat) (rows : List CartRow) :
    sumD pid (rows.map (fun r => (r.productId, -r.quantity))) =
      - sumD pid (rows.map (fun r => (r.productId, r.quantity))) := by
  induction rows with
  | nil => simp [sumD]
  | cons r rows ih =>
    rw [List.map_cons, List.map_cons, sumD_cons, sumD_cons, ih]
    by_cases hr : r.productId = pid
    · simp only [if_pos hr]; omega
    · simp only [if_neg hr]; omega

/-! ### Field preservation of the mutators -/

theorem adjustStock_map_id (pid : Nat) (d : Int) (ps : List Product) :
    (adjustStock pid d ps).map (·.id) = ps.map (·.id) := by
  unfold adjustStock
  rw [List.map_map]
  congr 1
  funext p
  by_cases hp : p.id = pid
  · simp [hp]
  · simp [hp]

theorem bumpStocks_map_id (l : List (Nat × Int)) (ps : List Product) :
    (bumpStocks l ps).map (·.id) = ps.map (·.id) := by
  induction l generalizing ps with
  | nil => rfl
  | cons e l ih => rw [bumpStocks_cons, ih, adjustStock_map_id]

theorem adjustCredit_map_id (uid : Nat) (d : Int) (us : List UserRow) :
    (adjustCredit uid d us).map (·.id) = us.map (·.id) := by
  unfold adjustCredit
  rw [List.map_map]
  congr 1
  funext u
  by_cases hu : u.id = uid
  · simp [hu]
  · simp [hu]

theorem mem_bumpStocks (l : List (Nat × Int)) (ps : List Product) (p' : Product)
    (h : p' ∈ bumpStocks l ps) :
    ∃ p ∈ ps, p'.id = p.id ∧ p'.name = p.name ∧ p'.price = p.price ∧
      p'.stock = p.stock + sumD p.id l := by
  induction l generalizing ps with
  | nil => exact ⟨p', h, rfl, rfl, rfl, by simp [sumD]⟩
  | cons e l ih =>
    rw [bumpStocks_cons] at h
    obtain ⟨q, hq, hqid, hqname, hqprice, hqstock⟩ := ih (adjustStock e.1 e.2 ps) h
    obtain ⟨p, hp, hpq⟩ := List.mem_map.mp hq
    by_cases hpe : (p.id == e.1) = true
    · rw [if_pos hpe] at hpq
      subst hpq
      have he1 : e.1 = p.id := by
        have h' : p.id = e.1 := by simpa using hpe
        omega
      dsimp only at hqid hqname hqprice hqstock
      refine ⟨p, hp, hqid, hqname, hqprice, ?_⟩
      rw [sumD_cons, if_pos he1, hqstock]
      omega
    · rw [if_neg hpe] at hpq
      subst hpq
      have he1 : ¬ e.1 = p.id := by
        intro he
        exact hpe (by simp [he])
      refine ⟨p, hp, hqid, hqname, hqprice, ?_⟩
      rw [sumD_cons, if_neg he1, hqstock]
      omega

theorem mem_adjustCredit (uid : Nat) (d : Int) (us : List UserRow) (u' : UserRow)
    (h : u' ∈ adjustCredit uid d us) :
    ∃ u ∈ us, u'.id = u.id ∧ u'.status = u.status ∧ u'.isAdmin = u.isAdmin ∧
      u'.credit = u.credit + (if u.id = uid then d else 0) := by
  obtain ⟨u, hu, huu⟩ := List.mem_map.mp h
  by_cases hue : (u.id == uid) = true
  · rw [if_pos hue] at huu
    subst huu
    have : u.id = uid := by simpa using hue
    exact ⟨u, hu, rfl, rfl, rfl, by simp [this]⟩
  · rw [if_neg hue] at huu
    subst huu
    have : ¬ u.id = uid := by simpa using hue
    exact ⟨u, hu, rfl, rfl, rfl, by simp [this]⟩

/-! ### Non-negativity of totals -/

theorem foldl_add_nonneg (rows : List CartRow) (acc : Int) (hacc : 0 ≤ acc)
    (h : ∀ r ∈ rows, 0 ≤ r.price * r.quantity) :
    0 ≤ rows.foldl (fun a r => a + r.price * r.quantity) acc := by
  induction rows generalizing acc with
  | nil => exact hacc
  | cons r rows ih =>
    rw [List.foldl_cons]
    exact ih _ (by have := h r (List.mem_cons_self r rows); omega)
      (fun x hx => h x (List.mem_cons_of_mem r hx))

theorem subtotalOf_nonneg (rows : List CartRow)
    (h : ∀ r ∈ rows, 0 ≤ r.price * r.quantity) : 0 ≤ subtotalOf rows :=
  foldl_add_nonneg rows 0 le_rfl h

theorem shippingFee_nonneg (st : Int) : 0 ≤ shippingFee st := by
  unfold shippingFee
  split <;> norm_num

/-! ### Invariant preservation -/

theorem map_fst_pairs_neg (rows : List CartRow) :
    ((rows.map (fun r => (r.productId, -r.quantity))).map Prod.fst) =
      rows.map (·.productId) := by
  rw [List.map_map]
  rfl

theorem stock_check_passed (s : State) (uid : Nat) (r : CartRow)
    (hstk : (cartRows s uid).find? (fun r => decide (r.stock < r.quantity)) = none)
    (hr : r ∈ cartRows s uid) : r.quantity ≤ r.stock := by
  have := List.find?_eq_none.mp hstk r hr
  simp at this
  omega

/-- The row's joined stock is the live stock of the product with that id,
provided product ids are unique. -/
theorem cartRow_stock_live (s : State) (uid : Nat) (r : CartRow) (p : Product)
    (hpid : (s.products.map (·.id)).Nodup)
    (hr : r ∈ cartRows s uid) (hp : p ∈ s.products) (hid : r.productId = p.id) :
    r.stock = p.stock ∧ r.price = p.price := by
  obtain ⟨c, hc, hcu, hrpid, hrq, p0, hp0, hrprice, hrstock, hrname⟩ := mem_cartRows s uid r hr
  have hfind : s.products.find? (fun y => y.id == p.id) = some p :=
    nodup_find?_self (fun q => q.id) s.products hpid p hp
  rw [hid] at hp0
  unfold findProduct at hp0
  rw [hfind] at hp0
  cases hp0
  exact ⟨hrstock, hrprice⟩

theorem inv_settle (s : State) (uid : Nat) (req : SettleReq) (n : String)
    (h : Inv s) : Inv (settle s uid req n).2 := by
  cases hres : (settle s uid req n).1 with
  | error e => rw [settle_err_snd s uid req n e hres]; exact h
  | ok x =>
    obtain ⟨oid, total⟩ := x
    obtain ⟨u, hu, hr, hsx, hne, hstk, hcred⟩ := settle_ok_checks s uid req n oid total hres
    have htot := settle_ok_total s uid req n oid total hres
    rw [settle_ok_state s uid req n oid total hres]
    obtain ⟨hpid, huid, hprod, hcreds, hcart, hpairs, hitems, horders⟩ := h
    refine ⟨?_, ?_, ?_, ?_, ?_, ?_, ?_, ?_⟩
    · rw [bumpStocks_map_id]
      exact hpid
    · rw [adjustCredit_map_id]
      exact huid
    · intro p' hp'
      obtain ⟨p, hp, hid, hname, hprice, hstock⟩ := mem_bumpStocks _ _ _ hp'
      constructor
      · rw [hstock]
        by_cases hmem : p.id ∈ (cartRows s uid).map (·.productId)
        · obtain ⟨r, hrm, hrid⟩ := List.mem_map.mp hmem
          have hfst :
              (((cartRows s uid).map (fun r => (r.productId, -r.quantity))).map Prod.fst).Nodup := by
            rw [map_fst_pairs_neg]
            exact cartRows_pid_nodup s uid hpairs
          have hsum : sumD p.id ((cartRows s uid).map (fun r => (r.productId, -r.quantity)))
              = -r.quantity :=
            sumD_nodup_mem _ _ hfst (r.productId, -r.quantity)
              (List.mem_map_of_mem _ hrm) hrid
          rw [hsum]
          have hq := stock_check_passed s uid r hstk hrm
          have hlive := cartRow_stock_live s uid r p hpid hrm hp hrid
          have := (hprod p hp).1
          omega
        · rw [sumD_not_mem]
          · have := (hprod p hp).1
            omega
          · rw [map_fst_pairs_neg]
            exact hmem
      · rw [hprice]
        exact (hprod p hp).2
    · intro u' hu'
      obtain ⟨u0, hu0, hid, hst, had, hcr⟩ := mem_adjustCredit _ _ _ _ hu'
      rw [hcr]
      by_cases hu0id : u0.id = uid
      · have hfind : s.users.find? (fun y => y.id == u0.id) = some u0 :=
          nodup_find?_self (fun q => q.id) s.users huid u0 hu0
        rw [hu0id] at hfind
        unfold findUser at hu
        rw [hfind] at hu
        cases hu
        rw [if_pos hu0id]
        omega
      · rw [if_neg hu0id]
        have := hcreds u0 hu0
        omega
    · intro c hc
      exact hcart c (List.mem_of_mem_filter hc)
    · exact ((List.filter_sublist _).map _).nodup hpairs
    · intro i hi
      cases List.mem_append.mp hi with
      | inl hold => exact hitems i hold
      | inr hnew =>
        obtain ⟨r, hrm, hri⟩ := List.mem_map.mp hnew
        obtain ⟨c, hc, hcu, hrpid, hrq, _⟩ := mem_cartRows s uid r hrm
        have := hcart c hc
        rw [← hri]
        unfold lineOf
        dsimp only
        omega
    · intro o ho
      cases List.mem_append.mp ho with
      | inl hold => exact horders o hold
      | inr hnew =>
        rw [List.mem_singleton.mp hnew]
        unfold settleOrderRecord
        dsimp only
        unfold settleTotal
        have hsub : 0 ≤ subtotalOf (cartRows s uid) := by
          apply subtotalOf_nonneg
          intro r hrm
          obtain ⟨c, hc, hcu, hrpid, hrq, p0, hp0, hrprice, hrstock, hrname⟩ :=
            mem_cartRows s uid r hrm
          have hp0m : p0 ∈ s.products :=
            List.mem_of_find?_eq_some hp0
          have hpr := (hprod p0 hp0m).2
          have hq := hcart c hc
          rw [hrprice, hrq]
          exact mul_nonneg hpr hq
        have hfee := shippingFee_nonneg (subtotalOf (cartRows s uid))
        omega

theorem inv_products_bump_nonneg (l : List (Nat × Int)) (ps : List Product)
    (hl : ∀ e ∈ l, 0 ≤ e.2) (hps : ∀ p ∈ ps, 0 ≤ p.stock ∧ 0 ≤ p.price) :
    ∀ p' ∈ bumpStocks l ps, 0 ≤ p'.stock ∧ 0 ≤ p'.price := by
  intro p' hp'
  obtain ⟨p, hp, hid, hname, hprice, hstock⟩ := mem_bumpStocks _ _ _ hp'
  have hsd := sumD_nonneg p.id l hl
  have hpp := hps p hp
  constructor
  · rw [hstock]
    omega
  · rw [hprice]
    exact hpp.2

theorem inv_users_refund (us : List UserRow) (uid : Nat) (total : Int)
    (htot : 0 ≤ total) (hus : ∀ u ∈ us, 0 ≤ u.credit) :
    ∀ u' ∈ adjustCredit uid total us, 0 ≤ u'.credit := by
  intro u' hu'
  obtain ⟨u, hu, _, _, _, hcr⟩ := mem_adjustCredit _ _ _ _ hu'
  have := hus u hu
  rw [hcr]
  by_cases hid : u.id = uid
  · rw [if_pos hid]; omega
  · rw [if_neg hid]; omega

theorem orders_update_totals (os : List Order) (g : Order → Order) (oid : Nat)
    (hg : ∀ o, (g o).totalAmount = o.totalAmount)
    (h : ∀ o ∈ os, 0 ≤ o.totalAmount) :
    ∀ o' ∈ os.map (fun o => if o.id == oid then g o else o), 0 ≤ o'.totalAmount := by
  intro o' ho'
  obtain ⟨o, ho, hoo⟩ := List.mem_map.mp ho'
  by_cases hb : (o.id == oid) = true
  · rw [if_pos hb] at hoo
    rw [← hoo, hg]
    exact h o ho
  · rw [if_neg hb] at hoo
    rw [← hoo]
    exact h o ho

theorem items_pairs_nonneg (items : List OrderItem)
    (h : ∀ i ∈ items, 0 ≤ i.quantity) :
    ∀ e ∈ items.map (fun i => (i.productId, i.quantity)), 0 ≤ e.2 := by
  intro e he
  obtain ⟨i, hi, hie⟩ := List.mem_map.mp he
  rw [← hie]
  exact h i hi

theorem inv_cancel (s : State) (uid oid : Nat) (reason : Option String)
    (h : Inv s) : Inv (cancelOrder s uid oid reason).2 := by
  cases reason with
  | none => exact h
  | some r =>
    by_cases ht : jsTrim r = ""
    · have h2 : (cancelOrder s uid oid (some r)).2 = s := by simp [cancelOrder, ht]
      rw [h2]; exact h
    · cases hf : s.orders.find? (fun o => o.id == oid && o.userId == uid) with
      | none =>
        have h2 : (cancelOrder s uid oid (some r)).2 = s := by simp [cancelOrder, ht, hf]
        rw [h2]; exact h
      | some order =>
        by_cases hst : order.status = "pending"
        · have heq := cancel_ok_state s uid oid r order ht hf hst
          have h2 : (cancelOrder s uid oid (some r)).2 = _ := congrArg Prod.snd heq
          rw [h2]
          obtain ⟨hpid, huid, hprod, hcreds, hcart, hpairs, hitems, horders⟩ := h
          refine ⟨?_, ?_, ?_, ?_, hcart, hpairs, hitems, ?_⟩
          · rw [bumpStocks_map_id]; exact hpid
          · rw [adjustCredit_map_id]; exact huid
          · exact inv_products_bump_nonneg _ _
              (items_pairs_nonneg _ (fun i hi => hitems i (List.mem_of_mem_filter hi))) hprod
          · exact inv_users_refund _ _ _
              (horders order (List.mem_of_find?_eq_some hf)) hcreds
          · exact orders_update_totals _ _ _ (fun o => rfl) horders
        · have h2 : (cancelOrder s uid oid (some r)).2 = s := by simp [cancelOrder, ht, hf, hst]
          rw [h2]; exact h

theorem inv_adminStatus (s : State) (oid : Nat) (st : String) (cr an : Option String)
    (h : Inv s) : Inv (adminSetStatus s oid st cr an).2 := by
  by_cases hv : validStatuses.contains st = true
  · cases hf : s.orders.find? (fun o => o.id == oid) with
    | none =>
      have hm : st ∈ validStatuses := by simpa using hv
      have h2 : (adminSetStatus s oid st cr an).2 = s := by simp [adminSetStatus, hm, hf]
      rw [h2]; exact h
    | some order =>
      by_cases hcan : st = "cancelled"
      · subst hcan
        by_cases hoc : order.status = "cancelled"
        · have heq := adminSetStatus_cancel_skip s oid cr an order hf hoc
          have h2 : (adminSetStatus s oid "cancelled" cr an).2 = _ := congrArg Prod.snd heq
          rw [h2]
          obtain ⟨hpid, huid, hprod, hcreds, hcart, hpairs, hitems, horders⟩ := h
          exact ⟨hpid, huid, hprod, hcreds, hcart, hpairs, hitems,
            orders_update_totals _ _ _ (fun o => rfl) horders⟩
        · have heq := adminSetStatus_cancel_refund s oid cr an order hf hoc
          have h2 : (adminSetStatus s oid "cancelled" cr an).2 = _ := congrArg Prod.snd heq
          rw [h2]
          obtain ⟨hpid, huid, hprod, hcreds, hcart, hpairs, hitems, horders⟩ := h
          refine ⟨?_, ?_, ?_, ?_, hcart, hpairs, hitems, ?_⟩
          · rw [bumpStocks_map_id]; exact hpid
          · rw [adjustCredit_map_id]; exact huid
          · exact inv_products_bump_nonneg _ _
              (items_pairs_nonneg _ (fun i hi => hitems i (List.mem_of_mem_filter hi))) hprod
          · exact inv_users_refund _ _ _
              (horders order (List.mem_of_find?_eq_some hf)) hcreds
          · exact orders_update_totals _ _ _ (fun o => rfl) horders
      · have heq := adminSetStatus_noncancel s oid st cr an order hv hcan hf
        have h2 : (adminSetStatus s oid st cr an).2 = _ := congrArg Prod.snd heq
        rw [h2]
        obtain ⟨hpid, huid, hprod, hcreds, hcart, hpairs, hitems, horders⟩ := h
        exact ⟨hpid, huid, hprod, hcreds, hcart, hpairs, hitems,
          orders_update_totals _ _ _ (fun o => rfl) horders⟩
  · have hm : st ∉ validStatuses := by simpa using hv
    have h2 : (adminSetStatus s oid st cr an).2 = s := by simp [adminSetStatus, hm]
    rw [h2]; exact h

theorem setCredit_map_id (mid : Nat) (nc : Int) (us : List UserRow) :
    (us.map (fun u => if u.id == mid then { u with credit := nc } else u)).map (·.id) =
      us.map (·.id) := by
  rw [List.map_map]
  congr 1
  funext u
  by_cases hu : u.id = mid
  · simp [hu]
  · simp [hu]

theorem inv_users_set (us : List UserRow) (mid : Nat) (nc : Int) (hnc : 0 ≤ nc)
    (hus : ∀ u ∈ us, 0 ≤ u.credit) :
    ∀ u' ∈ us.map (fun u => if u.id == mid then { u with credit := nc } else u),
      0 ≤ u'.credit := by
  intro u' hu'
  obtain ⟨u, hu, huu⟩ := List.mem_map.mp hu'
  by_cases hb : (u.id == mid) = true
  · rw [if_pos hb] at huu
    rw [← huu]
    exact hnc
  · rw [if_neg hb] at huu
    rw [← huu]
    exact hus u hu

theorem inv_adminCredit (s : State) (mid : Nat) (c adj : Option Int)
    (h : Inv s) : Inv (adminSetCredit s mid c adj).2 := by
  cases hf : s.users.find? (fun u => u.id == mid && !u.isAdmin) with
  | none =>
    have h2 : (adminSetCredit s mid c adj).2 = s := by simp [adminSetCredit, hf]
    rw [h2]; exact h
  | some existing =>
    have hmain : ∀ nc : Int, ¬ nc < 0 →
        Inv { s with users := s.users.map (fun u =>
          if u.id == mid then { u with credit := nc } else u) } := by
      intro nc hnc
      obtain ⟨hpid, huid, hprod, hcreds, hcart, hpairs, hitems, horders⟩ := h
      refine ⟨hpid, ?_, hprod, ?_, hcart, hpairs, hitems, horders⟩
      · rw [setCredit_map_id]; exact huid
      · exact inv_users_set _ _ _ (by omega) hcreds
    cases adj with
    | some a =>
      by_cases hneg : existing.credit + a < 0
      · have h2 : (adminSetCredit s mid c (some a)).2 = s := by
          simp [adminSetCredit, hf, hneg]
        rw [h2]; exact h
      · have h2 : (adminSetCredit s mid c (some a)).2 =
            { s with users := s.users.map (fun u =>
              if u.id == mid then { u with credit := existing.credit + a } else u) } := by
          simp only [adminSetCredit, hf]
          rw [if_neg hneg]
        rw [h2]
        exact hmain _ hneg
    | none =>
      cases c with
      | none =>
        have h2 : (adminSetCredit s mid none none).2 = s := by simp [adminSetCredit, hf]
        rw [h2]; exact h
      | some nc =>
        by_cases hneg : nc < 0
        · have h2 : (adminSetCredit s mid (some nc) none).2 = s := by
            simp [adminSetCredit, hf, hneg]
          rw [h2]; exact h
        · have h2 : (adminSetCredit s mid (some nc) none).2 =
              { s with users := s.users.map (fun u =>
                if u.id == mid then { u with credit := nc } else u) } := by
            simp only [adminSetCredit, hf]
            rw [if_neg hneg]
          rw [h2]
          exact hmain _ hneg

theorem inv_applyOp (s : State) (op : Op) (h : Inv s) : Inv (applyOp s op) := by
  cases op with
  | settleOp uid req n => exact inv_settle s uid req n h
  | cancelOp uid oid r => exact inv_cancel s uid oid r h
  | adminStatusOp oid st cr an => exact inv_adminStatus s oid st cr an h
  | adminCreditOp mid c adj => exact inv_adminCredit s mid c adj h

theorem inv_applyOps (ops : List Op) (s : State) (h : Inv s) : Inv (applyOps ops s) := by
  induction ops generalizing s with
  | nil => exact h
  | cons op ops ih => exact ih _ (inv_applyOp s op h)

/-! ### Precondition-failure frame -/

theorem settle_of_plan_error (s : State) (uid : Nat) (req : SettleReq) (n : String)
    (e : SettleError) (hp : settlePlan s uid req n = .error e) :
    settle s uid req n = (.error e, s) := by
  simp [settle, hp]

/-- Whenever any of the five checks is violated, the settlement route
answers an error and leaves the state untouched. -/
theorem settle_precondition_reject (s : State) (uid : Nat) (req : SettleReq) (n : String)
    (u : UserRow) (hu : findUser s uid = some u)
    (hfail : restrictedStatus u.status = true ∨
      shippingIncomplete req.shippingName req.shippingPhone req.shippingAddress = true ∨
      cartRows s uid = [] ∨
      (∃ r ∈ cartRows s uid, r.stock < r.quantity) ∨
      u.credit < settleTotal s uid) :
    ∃ e, settle s uid req n = (.error e, s) := by
  cases hr : restrictedStatus u.status with
  | true =>
    exact ⟨_, settle_of_plan_error s uid req n _ (settlePlan_restricted s uid req n u hu hr)⟩
  | false =>
    cases hs : shippingIncomplete req.shippingName req.shippingPhone req.shippingAddress with
    | true =>
      exact ⟨_, settle_of_plan_error s uid req n _ (settlePlan_shipping s uid req n u hu hr hs)⟩
    | false =>
      by_cases hemp : cartRows s uid = []
      · exact ⟨_, settle_of_plan_error s uid req n _
          (settlePlan_emptyCart s uid req n u hu hr hs hemp)⟩
      · cases hb : (cartRows s uid).find? (fun r => decide (r.stock < r.quantity)) with
        | some bad =>
          exact ⟨_, settle_of_plan_error s uid req n _
            (settlePlan_badStock s uid req n u bad hu hr hs hb)⟩
        | none =>
          have hcred : u.credit < settleTotal s uid := by
            rcases hfail with h1 | h2 | h3 | h4 | h5
            · simp [hr] at h1
            · simp [hs] at h2
            · exact absurd h3 hemp
            · obtain ⟨r, hrm, hlt⟩ := h4
              have hno := List.find?_eq_none.mp hb r hrm
              simp at hno
              omega
            · exact h5
          exact ⟨_, settle_of_plan_error s uid req n _
            (settlePlan_badCredit s uid req n u hu hr hs hemp hb hcred)⟩

/-! ### Claim theorems -/

/-- C1 (code bug): the settlement route runs its writes with no
transaction, so a storage error after the fourth SQL mutation (order
header inserted, both order lines inserted, the first product's stock
decremented) persists a partial settlement: the order header exists, one
stock is decremented and the other is not, the credit is undebited and the
cart is still full — nothing is rolled back, contradicting the all-or-
nothing requirement. -/
theorem c1_no_rollback_partial_state :
    settleAfterSteps stBase 1 reqA "FP1" 4 ≠ stBase ∧
    settleAfterSteps stBase 1 reqA "FP1" 4 ≠ (settle stBase 1 reqA "FP1").2 ∧
    orderStatusOf? (settleAfterSteps stBase 1 reqA "FP1" 4) 1 = some "pending" ∧
    stockOf? (settleAfterSteps stBase 1 reqA "FP1" 4) 1 = some 4 ∧
    stockOf? (settleAfterSteps stBase 1 reqA "FP1" 4) 2 = some 4 ∧
    creditOf? (settleAfterSteps stBase 1 reqA "FP1" 4) 1 = some 1000 ∧
    (settleAfterSteps stBase 1 reqA "FP1" 4).cartItems = stBase.cartItems := by
  decide

/-- C2: a settlement that violates any of the five preconditions answers
an error with the state — stock, credit, cart, orders and order lines —
exactly as it was; no mutation is attempted. -/
theorem c2_precondition_failure_frame (s : State) (uid : Nat) (req : SettleReq)
    (n : String) (u : UserRow) (hu : findUser s uid = some u)
    (hfail : restrictedStatus u.status = true ∨
      shippingIncomplete req.shippingName req.shippingPhone req.shippingAddress = true ∨
      cartRows s uid = [] ∨
      (∃ r ∈ cartRows s uid, r.stock < r.quantity) ∨
      u.credit < settleTotal s uid) :
    ∃ e, settle s uid req n = (.error e, s) :=
  settle_precondition_reject s uid req n u hu hfail

/-- Witness for C2 at a concrete state with insufficient stock. -/
theorem c2_precondition_failure_frame_witness :
    ∃ e, settle stShortStock 1 reqA "N" = (.error e, stShortStock) :=
  c2_precondition_failure_frame stShortStock 1 reqA "N" userActive (by decide)
    (Or.inr (Or.inr (Or.inr (Or.inl (by decide)))))

/-- C3: a successful settlement's total is the cart subtotal at current
prices plus the shipping fee; the stored order carries that total; the
fee is 0 exactly when the subtotal reaches 799 and is 100 otherwise, with
the stated boundary values. -/
theorem c3_total_amount (s : State) (uid : Nat) (req : SettleReq) (n : String)
    (oid : Nat) (total : Int)
    (h : (settle s uid req n).1 = .ok (oid, total)) :
    total = subtotalOf (cartRows s uid) + shippingFee (subtotalOf (cartRows s uid)) ∧
    (∃ o ∈ (settle s uid req n).2.orders, o.orderNumber = n ∧ o.totalAmount = total) ∧
    (shippingFee (subtotalOf (cartRows s uid)) = 0 ↔ 799 ≤ subtotalOf (cartRows s uid)) ∧
    (¬ 799 ≤ subtotalOf (cartRows s uid) →
      shippingFee (subtotalOf (cartRows s uid)) = 100) ∧
    shippingFee 799 = 0 ∧ shippingFee 798 = 100 := by
  have htot := settle_ok_total s uid req n oid total h
  have hst := settle_ok_state s uid req n oid total h
  refine ⟨htot, ?_, ?_, ?_, by decide, by decide⟩
  · rw [hst]
    refine ⟨settleOrderRecord s uid req n,
      List.mem_append_right _ (List.mem_singleton_self _), rfl, ?_⟩
    rw [htot]
    rfl
  · by_cases h79 : 799 ≤ subtotalOf (cartRows s uid)
    · simp [shippingFee, h79]
    · simp [shippingFee, h79]
  · intro h79
    simp [shippingFee, h79]

/-- Witness for C3 on the base state: subtotal 700, fee 100, total 800. -/
theorem c3_total_amount_witness :
    (settle stBase 1 reqA "FP1").1 = .ok (1, 800) ∧
    ((800 : Int) = subtotalOf (cartRows stBase 1) + shippingFee (subtotalOf (cartRows stBase 1)) ∧
    (∃ o ∈ (settle stBase 1 reqA "FP1").2.orders, o.orderNumber = "FP1" ∧ o.totalAmount = 800) ∧
    (shippingFee (subtotalOf (cartRows stBase 1)) = 0 ↔ 799 ≤ subtotalOf (cartRows stBase 1)) ∧
    (¬ 799 ≤ subtotalOf (cartRows stBase 1) →
      shippingFee (subtotalOf (cartRows stBase 1)) = 100) ∧
    shippingFee 799 = 0 ∧ shippingFee 798 = 100) :=
  ⟨by rfl, c3_total_amount stBase 1 reqA "FP1" 1 800 (by rfl)⟩

/-- C4 (counterexample): the admin status route force-cancels a
`completed` — terminal — order: the call is accepted, the status leaves
`completed`, and the refund even runs, contradicting the claimed state
machine. -/
theorem c4_counterexample_cancel_completed :
    (adminSetStatus stCompletedOrder 1 "cancelled" none none).1 = .ok () ∧
    orderStatusOf? (adminSetStatus stCompletedOrder 1 "cancelled" none none).2 1 =
      some "cancelled" ∧
    creditOf? (adminSetStatus stCompletedOrder 1 "cancelled" none none).2 1 = some 1700 ∧
    stockOf? (adminSetStatus stCompletedOrder 1 "cancelled" none none).2 1 = some 6 :=
  ⟨by rfl, by decide, by decide, by decide⟩

/-- C4 (amended): owner cancellation is pending-only, but the admin route
enforces no state machine at all: it accepts every status of
`validStatuses` for every existing order regardless of its current status,
and in particular moves a cancelled order back to `processing`. -/
theorem c4_amended_no_admin_state_machine :
    (∀ (s : State) (uid oid : Nat) (r : String) (order : Order), jsTrim r ≠ "" →
      s.orders.find? (fun o => o.id == oid && o.userId == uid) = some order →
      order.status ≠ "pending" →
      cancelOrder s uid oid (some r) = (.error .notPending, s)) ∧
    (∀ (s : State) (oid : Nat) (st : String) (cr an : Option String) (order : Order),
      st ∈ validStatuses →
      s.orders.find? (fun o => o.id == oid) = some order →
      (adminSetStatus s oid st cr an).1 = .ok ()) ∧
    (∀ (s : State) (oid : Nat) (cr an : Option String) (order : Order),
      s.orders.find? (fun o => o.id == oid) = some order →
      order.status = "cancelled" →
      orderStatusOf? (adminSetStatus s oid "processing" cr an).2 oid =
        some "processing") := by
  refine ⟨fun s uid oid r order ht hf hs => cancel_not_pending s uid oid r order ht hf hs,
    ?_, ?_⟩
  · intro s oid st cr an order hm hf
    have hv : validStatuses.contains st = true := by simpa using hm
    by_cases hcan : st = "cancelled"
    · subst hcan
      by_cases hoc : order.status = "cancelled"
      · rw [adminSetStatus_cancel_skip s oid cr an order hf hoc]
      · rw [adminSetStatus_cancel_refund s oid cr an order hf hoc]
    · rw [adminSetStatus_noncancel s oid st cr an order hv hcan hf]
  · intro s oid cr an order hf hoc
    have hv : validStatuses.contains "processing" = true := by decide
    have hne : ("processing" : String) ≠ "cancelled" := by decide
    rw [adminSetStatus_noncancel s oid "processing" cr an order hv hne hf]
    unfold orderStatusOf? findOrder
    have hmap := find?_map_update (fun o => { o with status := "processing" })
      (fun o => rfl) s.orders oid
    dsimp only
    rw [hmap, hf]
    rfl

/-- Witness for C4's amended statement at concrete orders. -/
theorem c4_amended_no_admin_state_machine_witness :
    cancelOrder stCompletedOrder 1 1 (some "no") = (.error .notPending, stCompletedOrder) ∧
    (adminSetStatus stCancelledOrder 1 "shipped" none none).1 = .ok () ∧
    orderStatusOf? (adminSetStatus stCancelledOrder 1 "processing" none none).2 1 =
      some "processing" :=
  ⟨c4_amended_no_admin_state_machine.1 stCompletedOrder 1 1 "no"
      { orderPending with status := "completed" } (by decide) (by rfl) (by decide),
   c4_amended_no_admin_state_machine.2.1 stCancelledOrder 1 "shipped" none none
      { orderPending with status := "cancelled", cancelReason := some "late" }
      (by decide) (by rfl),
   c4_amended_no_admin_state_machine.2.2 stCancelledOrder 1 none none
      { orderPending with status := "cancelled", cancelReason := some "late" }
      (by rfl) (by decide)⟩

/-- C5: the five settlement checks run in source order, each with its own
distinct rejection, and an insufficient-stock rejection names the first
short product in cart-line order. -/
theorem c5_checks_in_order (s : State) (uid : Nat) (req : SettleReq) (n : String)
    (u : UserRow) (hu : findUser s uid = some u) :
    (restrictedStatus u.status = true →
      settle s uid req n = (.error .accountRestricted, s)) ∧
    (restrictedStatus u.status = false →
      shippingIncomplete req.shippingName req.shippingPhone req.shippingAddress = true →
      settle s uid req n = (.error .incompleteShipping, s)) ∧
    (restrictedStatus u.status = false →
      shippingIncomplete req.shippingName req.shippingPhone req.shippingAddress = false →
      cartRows s uid = [] → settle s uid req n = (.error .emptyCart, s)) ∧
    (∀ pre bad post, restrictedStatus u.status = false →
      shippingIncomplete req.shippingName req.shippingPhone req.shippingAddress = false →
      cartRows s uid = pre ++ bad :: post →
      (∀ r ∈ pre, ¬ r.stock < r.quantity) →
      bad.stock < bad.quantity →
      settle s uid req n = (.error (.insufficientStock bad.pname), s)) ∧
    (restrictedStatus u.status = false →
      shippingIncomplete req.shippingName req.shippingPhone req.shippingAddress = false →
      cartRows s uid ≠ [] →
      (∀ r ∈ cartRows s uid, ¬ r.stock < r.quantity) →
      u.credit < settleTotal s uid →
      settle s uid req n = (.error .insufficientCredit, s)) := by
  refine ⟨?_, ?_, ?_, ?_, ?_⟩
  · intro hr
    exact settle_of_plan_error s uid req n _ (settlePlan_restricted s uid req n u hu hr)
  · intro hr hs
    exact settle_of_plan_error s uid req n _ (settlePlan_shipping s uid req n u hu hr hs)
  · intro hr hs hc
    exact settle_of_plan_error s uid req n _ (settlePlan_emptyCart s uid req n u hu hr hs hc)
  · intro pre bad post hr hs hcr hpre hbad
    have hb : (cartRows s uid).find? (fun r => decide (r.stock < r.quantity)) = some bad := by
      rw [hcr, List.find?_append]
      have hnone : pre.find? (fun r => decide (r.stock < r.quantity)) = none := by
        rw [List.find?_eq_none]
        intro r hrm
        simpa using hpre r hrm
      rw [hnone, Option.none_or]
      exact List.find?_cons_of_pos _ (by simpa using hbad)
    exact settle_of_plan_error s uid req n _ (settlePlan_badStock s uid req n u bad hu hr hs hb)
  · intro hr hs hne hok hcred
    have hb : (cartRows s uid).find? (fun r => decide (r.stock < r.quantity)) = none := by
      rw [List.find?_eq_none]
      intro r hrm
      simpa using hok r hrm
    exact settle_of_plan_error s uid req n _
      (settlePlan_badCredit s uid req n u hu hr hs hne hb hcred)

/-- Witness for C5: a suspended account is rejected first; a short product
is rejected by name, being the first (and only) insufficient line. -/
theorem c5_checks_in_order_witness :
    settle stSuspendedOwner 2 reqA "N1" = (.error .accountRestricted, stSuspendedOwner) ∧
    settle stShortStock 1 reqA "N2" = (.error (.insufficientStock "apple"), stShortStock) :=
  ⟨(c5_checks_in_order stSuspendedOwner 2 reqA "N1" userSuspended (by rfl)).1 (by decide),
   (c5_checks_in_order stShortStock 1 reqA "N2" userActive (by rfl)).2.2.2.1
     [] { productId := 1, quantity := 1, price := 600, stock := 0, pname := "apple" } []
     (by decide) (by decide) (by rfl) (by decide) (by decide)⟩

/-- C6: a successful settlement followed immediately by owner
cancellation of the created order restores every product's stock and the
account's credit to exactly their pre-settlement values. -/
theorem c6_settle_cancel_roundtrip (s : State) (uid : Nat) (req : SettleReq)
    (n : String) (oid : Nat) (total : Int) (r : String)
    (hfresh : ∀ o ∈ s.orders, o.orderNumber ≠ n)
    (hri : ∀ i ∈ s.orderItems, ∃ o ∈ s.orders, i.orderId = o.id)
    (htrim : jsTrim r ≠ "")
    (hok : (settle s uid req n).1 = .ok (oid, total)) :
    (cancelOrder (settle s uid req n).2 uid oid (some r)).1 = .ok () ∧
    (∀ pid, stockOf? (cancelOrder (settle s uid req n).2 uid oid (some r)).2 pid =
      stockOf? s pid) ∧
    creditOf? (cancelOrder (settle s uid req n).2 uid oid (some r)).2 uid =
      creditOf? s uid := by
  have hoid := settle_ok_oid s uid req n oid total hfresh hok
  have htot := settle_ok_total s uid req n oid total hok
  have hst := settle_ok_state s uid req n oid total hok
  have hfind : (settle s uid req n).2.orders.find?
      (fun o => o.id == oid && o.userId == uid) = some (settleOrderRecord s uid req n) := by
    rw [hst]
    dsimp only
    rw [List.find?_append]
    have hnone : s.orders.find? (fun o => o.id == oid && o.userId == uid) = none := by
      rw [List.find?_eq_none]
      intro o ho
      have hlt := lt_freshOrderId s o ho
      simp only [Bool.and_eq_true, beq_iff_eq, not_and]
      intro h1
      exfalso
      rw [hoid] at h1
      omega
    rw [hnone, Option.none_or]
    apply List.find?_cons_of_pos
    simp only [Bool.and_eq_true, beq_iff_eq]
    constructor
    · show (settleOrderRecord s uid req n).id = oid
      rw [hoid]
      rfl
    · rfl
  have hcancel := cancel_ok_state (settle s uid req n).2 uid oid r
    (settleOrderRecord s uid req n) htrim hfind rfl
  have hitems : (settle s uid req n).2.orderItems.filter
      (fun i => i.orderId == (settleOrderRecord s uid req n).id) =
      (cartRows s uid).map (lineOf oid) := by
    rw [hst]
    dsimp only
    rw [List.filter_append]
    have h1 : s.orderItems.filter
        (fun i => i.orderId == (settleOrderRecord s uid req n).id) = [] := by
      rw [List.filter_eq_nil_iff]
      intro i hi
      obtain ⟨o, ho, hio⟩ := hri i hi
      have hlt := lt_freshOrderId s o ho
      simp only [beq_iff_eq]
      show ¬ i.orderId = freshOrderId s
      omega
    have h2 : ((cartRows s uid).map (lineOf oid)).filter
        (fun i => i.orderId == (settleOrderRecord s uid req n).id) =
        (cartRows s uid).map (lineOf oid) := by
      rw [List.filter_eq_self]
      intro i hi
      obtain ⟨rr, hrr, hlin⟩ := List.mem_map.mp hi
      rw [← hlin]
      show ((lineOf oid rr).orderId == (settleOrderRecord s uid req n).id) = true
      simp only [lineOf, beq_iff_eq]
      rw [hoid]
      rfl
    rw [h1, h2, List.nil_append]
  refine ⟨?_, ?_, ?_⟩
  · rw [hcancel]
  · intro pid
    have hprod2 : (cancelOrder (settle s uid req n).2 uid oid (some r)).2.products =
        bumpStocks (((cartRows s uid).map (lineOf oid)).map
          (fun i => (i.productId, i.quantity))) (settle s uid req n).2.products := by
      rw [hcancel]
      dsimp only
      rw [hitems]
    have hmm : ((cartRows s uid).map (lineOf oid)).map (fun i => (i.productId, i.quantity)) =
        (cartRows s uid).map (fun rr => (rr.productId, rr.quantity)) := by
      rw [List.map_map]
      rfl
    have hprod1 : (settle s uid req n).2.products =
        bumpStocks ((cartRows s uid).map (fun rr => (rr.productId, -rr.quantity)))
          s.products := by
      rw [hst]
    rw [stockOf?_eq_stockIn, hprod2, hmm, stockIn_bumpStocks, hprod1, stockIn_bumpStocks,
      sumD_map_neg, stockOf?_eq_stockIn]
    cases hsi : stockIn s.products pid with
    | none => simp
    | some v => simp
  · have husers2 : (cancelOrder (settle s uid req n).2 uid oid (some r)).2.users =
        adjustCredit uid (settleOrderRecord s uid req n).totalAmount
          (settle s uid req n).2.users := by
      rw [hcancel]
    have husers1 : (settle s uid req n).2.users = adjustCredit uid (-total) s.users := by
      rw [hst]
    rw [creditOf?_eq_creditIn, husers2, creditIn_adjustCredit, husers1,
      creditIn_adjustCredit, creditOf?_eq_creditIn]
    have hrectot : (settleOrderRecord s uid req n).totalAmount = settleTotal s uid := rfl
    cases hci : creditIn s.users uid with
    | none => simp
    | some v =>
      simp [hrectot]
      omega

/-- Witness for C6 on the base state: settle then cancel leaves stock 5/4
and credit 1000 exactly as before. -/
theorem c6_settle_cancel_roundtrip_witness :
    (cancelOrder (settle stBase 1 reqA "FP9").2 1 1 (some "oops")).1 = .ok () ∧
    (∀ pid, stockOf? (cancelOrder (settle stBase 1 reqA "FP9").2 1 1 (some "oops")).2 pid =
      stockOf? stBase pid) ∧
    creditOf? (cancelOrder (settle stBase 1 reqA "FP9").2 1 1 (some "oops")).2 1 =
      creditOf? stBase 1 :=
  c6_settle_cancel_roundtrip stBase 1 reqA "FP9" 1 800 "oops"
    (by decide) (by decide) (by decide) (by rfl)

/-- What an accepted owner cancellation does to stock and credit. -/
theorem cancel_ok_observations (s : State) (uid oid : Nat) (r : String) (order : Order)
    (ht : jsTrim r ≠ "")
    (hf : s.orders.find? (fun o => o.id == oid && o.userId == uid) = some order)
    (hs : order.status = "pending") :
    (cancelOrder s uid oid (some r)).1 = .ok () ∧
    (∀ pid, stockOf? (cancelOrder s uid oid (some r)).2 pid =
      (stockOf? s pid).map (fun x => x + sumD pid
        ((s.orderItems.filter (fun i => i.orderId == order.id)).map
          (fun i => (i.productId, i.quantity))))) ∧
    creditOf? (cancelOrder s uid oid (some r)).2 uid =
      (creditOf? s uid).map (fun x => x + order.totalAmount) := by
  have heq := cancel_ok_state s uid oid r order ht hf hs
  refine ⟨by rw [heq], ?_, ?_⟩
  · intro pid
    have hp : (cancelOrder s uid oid (some r)).2.products =
        bumpStocks ((s.orderItems.filter (fun i => i.orderId == order.id)).map
          (fun i => (i.productId, i.quantity))) s.products := by
      rw [heq]
    rw [stockOf?_eq_stockIn, hp, stockIn_bumpStocks, stockOf?_eq_stockIn]
  · have hu : (cancelOrder s uid oid (some r)).2.users =
        adjustCredit uid order.totalAmount s.users := by
      rw [heq]
    rw [creditOf?_eq_creditIn, hu, creditIn_adjustCredit, creditOf?_eq_creditIn]
    cases creditIn s.users uid with
    | none => simp
    | some v => simp

/-- What an admin force-cancellation (with no reason) does to stock and
credit when the order is not yet cancelled. -/
theorem admin_cancel_observations (s : State) (oid : Nat) (order : Order)
    (hf : s.orders.find? (fun o => o.id == oid) = some order)
    (hs : order.status ≠ "cancelled") :
    (adminSetStatus s oid "cancelled" none none).1 = .ok () ∧
    (∀ pid, stockOf? (adminSetStatus s oid "cancelled" none none).2 pid =
      (stockOf? s pid).map (fun x => x + sumD pid
        ((s.orderItems.filter (fun i => i.orderId == order.id)).map
          (fun i => (i.productId, i.quantity))))) ∧
    creditOf? (adminSetStatus s oid "cancelled" none none).2 order.userId =
      (creditOf? s order.userId).map (fun x => x + order.totalAmount) := by
  have heq := adminSetStatus_cancel_refund s oid none none order hf hs
  refine ⟨by rw [heq], ?_, ?_⟩
  · intro pid
    have hp : (adminSetStatus s oid "cancelled" none none).2.products =
        bumpStocks ((s.orderItems.filter (fun i => i.orderId == order.id)).map
          (fun i => (i.productId, i.quantity))) s.products := by
      rw [heq]
    rw [stockOf?_eq_stockIn, hp, stockIn_bumpStocks, stockOf?_eq_stockIn]
  · have hu : (adminSetStatus s oid "cancelled" none none).2.users =
        adjustCredit order.userId order.totalAmount s.users := by
      rw [heq]
    rw [creditOf?_eq_creditIn, hu, creditIn_adjustCredit, creditOf?_eq_creditIn]
    cases creditIn s.users order.userId with
    | none => simp
    | some v => simp

/-- C7 (counterexample): setting `cancelled` on an already-cancelled order
through the admin route is accepted (`200`, not an invalid-transition
rejection); stock and credit stay put, so only the rejection half of the
claim fails. -/
theorem c7_counterexample_admin_recancel_accepted :
    (adminSetStatus stCancelledOrder 1 "cancelled" (some "again") none).1 = .ok () ∧
    stockOf? (adminSetStatus stCancelledOrder 1 "cancelled" (some "again") none).2 1 =
      some 5 ∧
    creditOf? (adminSetStatus stCancelledOrder 1 "cancelled" (some "again") none).2 1 =
      some 1000 :=
  ⟨by rfl, by decide, by decide⟩

/-- C7 (amended): an owner's repeated cancellation is rejected (only
pending orders cancel), while the admin route accepts a repeated
cancellation but skips the refund — in neither case is stock or credit
incremented a second time. -/
theorem c7_amended_no_double_refund :
    (∀ (s : State) (uid oid : Nat) (r : String) (order : Order), jsTrim r ≠ "" →
      s.orders.find? (fun o => o.id == oid && o.userId == uid) = some order →
      order.status = "cancelled" →
      cancelOrder s uid oid (some r) = (.error .notPending, s)) ∧
    (∀ (s : State) (oid : Nat) (cr an : Option String) (order : Order),
      s.orders.find? (fun o => o.id == oid) = some order →
      order.status = "cancelled" →
      (adminSetStatus s oid "cancelled" cr an).1 = .ok () ∧
      (∀ pid, stockOf? (adminSetStatus s oid "cancelled" cr an).2 pid = stockOf? s pid) ∧
      (∀ u, creditOf? (adminSetStatus s oid "cancelled" cr an).2 u = creditOf? s u)) := by
  constructor
  · intro s uid oid r order ht hf hs
    exact cancel_not_pending s uid oid r order ht hf (by rw [hs]; decide)
  · intro s oid cr an order hf hs
    have heq := adminSetStatus_cancel_skip s oid cr an order hf hs
    refine ⟨by rw [heq], ?_, ?_⟩
    · intro pid
      rw [stockOf?_eq_stockIn, stockOf?_eq_stockIn]
      have : (adminSetStatus s oid "cancelled" cr an).2.products = s.products := by
        rw [heq]
      rw [this]
    · intro u
      rw [creditOf?_eq_creditIn, creditOf?_eq_creditIn]
      have : (adminSetStatus s oid "cancelled" cr an).2.users = s.users := by
        rw [heq]
      rw [this]

/-- Witness for C7's amended statement on the cancelled-order fixture. -/
theorem c7_amended_no_double_refund_witness :
    cancelOrder stCancelledOrder 1 1 (some "again") =
      (.error .notPending, stCancelledOrder) ∧
    (adminSetStatus stCancelledOrder 1 "cancelled" (some "x") none).1 = .ok () ∧
    (∀ pid, stockOf? (adminSetStatus stCancelledOrder 1 "cancelled" (some "x") none).2 pid =
      stockOf? stCancelledOrder pid) :=
  ⟨c7_amended_no_double_refund.1 stCancelledOrder 1 1 "again"
      { orderPending with status := "cancelled", cancelReason := some "late" }
      (by decide) (by rfl) (by decide),
   (c7_amended_no_double_refund.2 stCancelledOrder 1 (some "x") none
      { orderPending with status := "cancelled", cancelReason := some "late" }
      (by rfl) (by decide)).1,
   (c7_amended_no_double_refund.2 stCancelledOrder 1 (some "x") none
      { orderPending with status := "cancelled", cancelReason := some "late" }
      (by rfl) (by decide)).2.1⟩

/-- C9 (counterexample): the admin route cancels a pending order with no
cancellation reason at all, and the refund runs: credit 1000 → 1700 and
stock 5 → 6 — contradicting "every cancellation requires a non-empty
reason and is rejected without mutation when the reason is missing". -/
theorem c9_counterexample_admin_needs_no_reason :
    (adminSetStatus stPendingOrder 1 "cancelled" none none).1 = .ok () ∧
    creditOf? (adminSetStatus stPendingOrder 1 "cancelled" none none).2 1 = some 1700 ∧
    stockOf? (adminSetStatus stPendingOrder 1 "cancelled" none none).2 1 = some 6 :=
  ⟨by rfl, by decide, by decide⟩

/-- C9 (amended): the owner route alone requires a non-blank reason and
rejects without mutation otherwise; the admin route cancels with no
reason; an accepted cancellation of either kind adds each line's quantity
back to its product's stock and the order's total back to the owner's
credit. -/
theorem c9_amended_owner_reason_only :
    (∀ (s : State) (uid oid : Nat) (reason : Option String),
      (reason = none ∨ ∃ r, reason = some r ∧ jsTrim r = "") →
      cancelOrder s uid oid reason = (.error .missingReason, s)) ∧
    (∀ (s : State) (uid oid : Nat) (r : String) (order : Order), jsTrim r ≠ "" →
      s.orders.find? (fun o => o.id == oid && o.userId == uid) = some order →
      order.status = "pending" →
      (cancelOrder s uid oid (some r)).1 = .ok () ∧
      (∀ pid, stockOf? (cancelOrder s uid oid (some r)).2 pid =
        (stockOf? s pid).map (fun x => x + sumD pid
          ((s.orderItems.filter (fun i => i.orderId == order.id)).map
            (fun i => (i.productId, i.quantity))))) ∧
      creditOf? (cancelOrder s uid oid (some r)).2 uid =
        (creditOf? s uid).map (fun x => x + order.totalAmount)) ∧
    (∀ (s : State) (oid : Nat) (order : Order),
      s.orders.find? (fun o => o.id == oid) = some order →
      order.status ≠ "cancelled" →
      (adminSetStatus s oid "cancelled" none none).1 = .ok () ∧
      (∀ pid, stockOf? (adminSetStatus s oid "cancelled" none none).2 pid =
        (stockOf? s pid).map (fun x => x + sumD pid
          ((s.orderItems.filter (fun i => i.orderId == order.id)).map
            (fun i => (i.productId, i.quantity))))) ∧
      creditOf? (adminSetStatus s oid "cancelled" none none).2 order.userId =
        (creditOf? s order.userId).map (fun x => x + order.totalAmount)) :=
  ⟨fun s uid oid reason h => cancel_blank_reason s uid oid reason h,
   fun s uid oid r order ht hf hs => cancel_ok_observations s uid oid r order ht hf hs,
   fun s oid order hf hs => admin_cancel_observations s oid order hf hs⟩

/-- Witness for C9's amended statement on the pending-order fixture. -/
theorem c9_amended_owner_reason_only_witness :
    cancelOrder stPendingOrder 1 1 (some " ") =
      (.error .missingReason, stPendingOrder) ∧
    (cancelOrder stPendingOrder 1 1 (some "bad")).1 = .ok () ∧
    (adminSetStatus stPendingOrder 1 "cancelled" none none).1 = .ok () :=
  ⟨c9_amended_owner_reason_only.1 stPendingOrder 1 1 (some " ")
      (Or.inr ⟨" ", rfl, by decide⟩),
   (c9_amended_owner_reason_only.2.1 stPendingOrder 1 1 "bad" orderPending
      (by decide) (by rfl) (by rfl)).1,
   (c9_amended_owner_reason_only.2.2 stPendingOrder 1 orderPending
      (by rfl) (by decide)).1⟩

/-- C10: the owner cancellation route never consults the account's
status: a suspended or inactive owner cancels their own pending order and
receives the stock and credit refund. -/
theorem c10_owner_cancel_ignores_account_status (s : State) (uid oid : Nat)
    (r : String) (u : UserRow) (order : Order)
    (_hu : findUser s uid = some u)
    (_hrestricted : restrictedStatus u.status = true)
    (htrim : jsTrim r ≠ "")
    (hf : s.orders.find? (fun o => o.id == oid && o.userId == uid) = some order)
    (hst : order.status = "pending") :
    (cancelOrder s uid oid (some r)).1 = .ok () ∧
    creditOf? (cancelOrder s uid oid (some r)).2 uid =
      (creditOf? s uid).map (fun x => x + order.totalAmount) ∧
    (∀ pid, stockOf? (cancelOrder s uid oid (some r)).2 pid =
      (stockOf? s pid).map (fun x => x + sumD pid
        ((s.orderItems.filter (fun i => i.orderId == order.id)).map
          (fun i => (i.productId, i.quantity))))) := by
  have h := cancel_ok_observations s uid oid r order htrim hf hst
  exact ⟨h.1, h.2.2, h.2.1⟩

/-- Witness for C10: the suspended owner of order 1 cancels it and is
refunded. -/
theorem c10_owner_cancel_ignores_account_status_witness :
    (cancelOrder stSuspendedOwner 2 1 (some "why")).1 = .ok () ∧
    creditOf? (cancelOrder stSuspendedOwner 2 1 (some "why")).2 2 =
      (creditOf? stSuspendedOwner 2).map (fun x => x + ({ orderPending with userId := 2 } : Order).totalAmount) ∧
    (∀ pid, stockOf? (cancelOrder stSuspendedOwner 2 1 (some "why")).2 pid =
      (stockOf? stSuspendedOwner pid).map (fun x => x + sumD pid
        ((stSuspendedOwner.orderItems.filter
          (fun i => i.orderId == ({ orderPending with userId := 2 } : Order).id)).map
          (fun i => (i.productId, i.quantity))))) :=
  c10_owner_cancel_ignores_account_status stSuspendedOwner 2 1 "why" userSuspended
    { orderPending with userId := 2 } (by rfl) (by decide) (by decide) (by rfl) (by rfl)

/-- C8: starting from a state satisfying the schema invariants, any
sequence of settlements, cancellations, admin status changes and admin
credit adjustments keeps every stock and every credit non-negative, and a
settlement whose account lacks credit or whose cart outruns stock is
rejected with no mutation at all. -/
theorem c8_nonneg_under_all_ops (s : State) (ops : List Op) (h : Inv s) :
    (∀ p ∈ (applyOps ops s).products, 0 ≤ p.stock) ∧
    (∀ u ∈ (applyOps ops s).users, 0 ≤ u.credit) ∧
    (∀ (uid : Nat) (req : SettleReq) (n : String) (u : UserRow),
      findUser s uid = some u →
      (u.credit < settleTotal s uid ∨ ∃ r ∈ cartRows s uid, r.stock < r.quantity) →
      ∃ e, settle s uid req n = (.error e, s)) := by
  have hinv := inv_applyOps ops s h
  refine ⟨fun p hp => (hinv.2.2.1 p hp).1, hinv.2.2.2.1, ?_⟩
  intro uid req n u hu hfail
  apply settle_precondition_reject s uid req n u hu
  cases hfail with
  | inl h5 => exact Or.inr (Or.inr (Or.inr (Or.inr h5)))
  | inr h4 => exact Or.inr (Or.inr (Or.inr (Or.inl h4)))

/-- Witness for C8: the base state satisfies the invariant and survives a
settle–cancel–admin sequence. -/
theorem c8_nonneg_under_all_ops_witness :
    (∀ p ∈ (applyOps [Op.settleOp 1 reqA "FP1", Op.cancelOp 1 1 (some "x"),
        Op.adminStatusOp 1 "processing" none none,
        Op.adminCreditOp 1 (some 50) none] stBase).products, 0 ≤ p.stock) ∧
    (∀ u ∈ (applyOps [Op.settleOp 1 reqA "FP1", Op.cancelOp 1 1 (some "x"),
        Op.adminStatusOp 1 "processing" none none,
        Op.adminCreditOp 1 (some 50) none] stBase).users, 0 ≤ u.credit) :=
  ⟨(c8_nonneg_under_all_ops stBase _ (by decide)).1,
   (c8_nonneg_under_all_ops stBase _ (by decide)).2.1⟩

end FruitShop
